import Mathlib

/-!
# `script.js`: the video section, and the form, filter, lightbox and slider

Shallow embedding of the `videos` block of `src/script.js` (lines 571-722), followed by
`contactForm`, `render` of the procedures, the `keydown` listener of the gallery and
`initBeforeAfter`.

* The two containers `#video-carousel` and `#video-grid` are lists of cards.
* Every media element (`<video>` or `<lite-youtube>`) carries a node number, which
  stands for the identity of the DOM object (`v !== e.target`, `yt !== liteYt`).
* Listeners added by `attachVideoEvents` are counted per container, because every
  call registers a new closure and the browser runs each registered closure once.
* `setTimeout(..., 100)` callbacks are kept in a queue; all have the same delay, so
  they run in the order in which they were scheduled.
* `JSON.parse` is a builtin of the host; it is a parameter `parse` of the message
  handler (`none` stands for a thrown `SyntaxError`). `toLowerCase` is a parameter `lower`
  in the same way; `trim` and `includes` are written out.
* A number of the slider is `NaN`, an infinity or a finite value; the rounding of the
  machine arithmetic is a parameter `fl`, and `Math.max`, `Math.min` and `Math.round`
  are written out.
-/

namespace Dental

/-! ## Data model -/

/-- Whether the HTML parser copies a text as it stands, both as the content of an element
and as a double-quoted attribute value: the text has no `<`, `>`, `&` or `"`, which the
parser reads as markup, and no NUL or carriage return, which it replaces. -/
def isPlain (s : String) : Bool :=
  s.data.all (fun c =>
    !(c.toNat == 0 || c.toNat == 13 || c.toNat == 34 || c.toNat == 38 || c.toNat == 60 ||
      c.toNat == 62))

/-- A text of the fixture that `createVideoCard` may interpolate into the template it
assigns to `innerHTML`. What the parser makes of other texts depends on the parser and is
not described here. -/
structure Text where
  val : String
  plain : isPlain val = true
  deriving DecidableEq

instance : Repr Text := ⟨fun t n => reprPrec t.val n⟩

/-- The string of an optional text. -/
def text (o : Option Text) : Option String := o.map Text.val

/-- One entry of `data/videos.json`; an absent property is `none`. -/
structure VideoDesc where
  title : Text
  duration : Option Text
  caption : Option Text
  youtubeId : Option Text
  poster : Option Text
  src : Option Text
  deriving DecidableEq, Repr

/-- JavaScript truthiness of an optional string property. -/
def truthy : Option String → Bool
  | none => false
  | some s => !(s == "")

/-- The expression `x || ''` for an optional string property. -/
def orEmpty : Option String → String
  | none => ""
  | some s => s

/-- The media element placed in the `.thumb` of a card. -/
inductive Media where
  | liteYoutube (videoid : String) (playlabel : String)
  | video (poster : Option String) (source : Option String)
  deriving DecidableEq, Repr

/-- A media element together with its run-time state.
`playing` is the playback state kept by the browser (native) or by the embedded player;
`hasIframe` is `yt.shadowRoot && yt.shadowRoot.querySelector('iframe')`;
`pauseCalls` counts the calls of `pause()` on a native element, respectively the
`pauseVideo` commands posted to an embedded one;
`pauseSent` records that such a command has been posted to an embedded player since it
last started playing. -/
structure Player where
  node : Nat
  media : Media
  playing : Bool
  hasIframe : Bool
  pauseCalls : Nat
  pauseSent : Bool
  deriving DecidableEq, Repr

/-- An `article.video-card` as built by `createVideoCard`. -/
structure Card where
  dataIdx : Nat
  heading : String
  metaLine : String
  player : Player
  deriving DecidableEq, Repr

/-- The state of the video section: closure variables of `videos` and the part of the
document the block reads and writes. -/
structure VState where
  vids : List VideoDesc
  isExpanded : Bool
  carousel : List Card
  grid : List Card
  carouselDisplay : String
  gridHidden : Bool
  label : String
  carouselListeners : Nat
  gridListeners : Nat
  timers : List Nat
  nextNode : Nat
  deriving DecidableEq, Repr

/-- A value produced by `JSON.parse`. -/
inductive JVal where
  | null
  | bool (b : Bool)
  | num (x : ℚ)
  | str (s : String)
  | arr (items : List JVal)
  | obj (fields : List (String × JVal))

/-! ## Elements and queries -/

/-- Whether the element is a `<video>` (`tagName === 'VIDEO'`). -/
def Player.isVideo (p : Player) : Bool :=
  match p.media with
  | .video _ _ => true
  | .liteYoutube _ _ => false

/-- Whether the element is a `<lite-youtube>`. -/
def Player.isYt (p : Player) : Bool :=
  match p.media with
  | .video _ _ => false
  | .liteYoutube _ _ => true

/-- The call `v.pause()` on a native element. -/
def Player.pause (p : Player) : Player :=
  { p with playing := false, pauseCalls := p.pauseCalls + 1 }

/-- The call `iframe.contentWindow.postMessage('{"event":"command","func":"pauseVideo",...}', '*')`.
The attempt is recorded. Whether the embedded player obeys is up to that player: its
playback state is not touched here, and it stops, if it does, by a `stop` event. -/
def Player.postPause (p : Player) : Player :=
  { p with pauseCalls := p.pauseCalls + 1, pauseSent := true }

/-- All media elements matched by a selector over `#video-carousel` and `#video-grid`. -/
def players (s : VState) : List Player :=
  (s.carousel ++ s.grid).map Card.player

/-- Apply `f` to every media element of both containers (a `forEach` over a
`querySelectorAll` result). -/
def mapPlayers (f : Player → Player) (s : VState) : VState :=
  { s with
    carousel := s.carousel.map (fun c => { c with player := f c.player })
    grid := s.grid.map (fun c => { c with player := f c.player }) }

/-- The element with the given identity, when it is in one of the containers. -/
def findPlayer (s : VState) (n : Nat) : Option Player :=
  (players s).find? (fun p => p.node == n)

/-- Number of play/click listener pairs registered on the container that holds `n`. -/
def listenersAt (s : VState) (n : Nat) : Nat :=
  if s.carousel.any (fun c => c.player.node == n) then s.carouselListeners
  else if s.grid.any (fun c => c.player.node == n) then s.gridListeners
  else 0

/-- Cards of `activeContainer`. -/
def activeCards (s : VState) : List Card :=
  if s.isExpanded then s.grid else s.carousel

/-- Number of playing native elements in both containers. -/
def nativePlaying (s : VState) : Nat :=
  ((players s).filter (fun p => p.isVideo && p.playing)).length

/-- Number of playing embedded players in both containers. -/
def embeddedPlaying (s : VState) : Nat :=
  ((players s).filter (fun p => p.isYt && p.playing)).length

/-- Number of playing instances, native or embedded, in both containers. -/
def playingCount (s : VState) : Nat :=
  ((players s).filter (fun p => p.playing)).length

/-! ## `createVideoCard` and the surfaces -/

/-- The function `createVideoCard(v, idx)`: the elements that the HTML parser builds from
the template assigned to `card.innerHTML`. The interpolated texts are plain, so the parser
copies them as they stand. `node` is the identity of the new media element. -/
def createVideoCard (v : VideoDesc) (idx : Nat) (node : Nat) : Card :=
  { dataIdx := idx
    heading := v.title.val
    metaLine := orEmpty (text v.duration) ++ " " ++
      (if truthy (text v.caption) then "· " ++ orEmpty (text v.caption) else "")
    player :=
      { node := node
        media :=
          if truthy (text v.youtubeId) then
            Media.liteYoutube (orEmpty (text v.youtubeId)) ("Play: " ++ v.title.val)
          else
            Media.video (if truthy (text v.poster) then text v.poster else none)
              (if truthy (text v.src) then text v.src else none)
        playing := false
        hasIframe := false
        pauseCalls := 0
        pauseSent := false } }

/-- The loop `list.forEach((v, idx) => container.appendChild(createVideoCard(v, idx)))`,
the new elements taking the identities `start`, `start + 1`, ... -/
def buildCards (list : List VideoDesc) (start : Nat) : List Card :=
  list.enum.map (fun iv => createVideoCard iv.2 iv.1 (start + iv.1))

/-- The function `attachVideoEvents`: one more play listener and one more click listener
on the active container. The `mousemove` listeners of `attachHoverGlow` only write the
custom properties `--mx` and `--my` of a card and are left out. -/
def attachVideoEvents (s : VState) : VState :=
  if s.isExpanded then { s with gridListeners := s.gridListeners + 1 }
  else { s with carouselListeners := s.carouselListeners + 1 }

/-- The body of `videos` after a successful fetch, run on the document `page`:
the first three descriptors are appended to the carousel and the listeners attached. -/
def loadVideos (page : VState) (vids : List VideoDesc) : VState :=
  attachVideoEvents
    { page with
      vids := vids
      isExpanded := false
      carousel := page.carousel ++ buildCards (vids.take 3) page.nextNode
      nextNode := page.nextNode + (vids.take 3).length }

/-- The click listener of `#video-expand`. -/
def onToggle (s : VState) : VState :=
  attachVideoEvents
    (if !s.isExpanded then
      { s with
        isExpanded := true
        grid := buildCards s.vids s.nextNode
        nextNode := s.nextNode + s.vids.length
        gridHidden := false
        carouselDisplay := "none"
        label := "Show less" }
    else
      { s with
        isExpanded := false
        carouselDisplay := ""
        gridHidden := true
        label := "View all videos" })

/-! ## Playback coordination -/

/-- What the two `forEach` loops of the `play` listener do to one element:
`if (v !== e.target) v.pause()` for a `<video>`, and the guarded `postMessage` for a
`<lite-youtube>`. -/
def playEffect (target : Nat) (p : Player) : Player :=
  match p.media with
  | .video _ _ => if p.node != target then p.pause else p
  | .liteYoutube _ _ => if p.hasIframe then p.postPause else p

/-- One run of the capturing `play` listener for an event whose target is `target`;
it returns at once unless the target is a `<video>`. -/
def playListener (target : Nat) (s : VState) : VState :=
  match findPlayer s target with
  | none => s
  | some t => if !t.isVideo then s else mapPlayers (playEffect target) s

/-- Dispatch of a `play` event: every listener of the container of the target runs. -/
def dispatchPlay (target : Nat) (s : VState) : VState :=
  (playListener target)^[listenersAt s target] s

/-- What the two `forEach` loops of the timeout callback do to one element:
`v.pause()` for a `<video>`, and the `postMessage` guarded by
`yt !== liteYt && yt.shadowRoot && yt.shadowRoot.querySelector('iframe')` for a
`<lite-youtube>`. -/
def timerEffect (liteYt : Nat) (p : Player) : Player :=
  match p.media with
  | .video _ _ => p.pause
  | .liteYoutube _ _ => if p.node != liteYt && p.hasIframe then p.postPause else p

/-- The callback given to `setTimeout` by the click listener; `liteYt` is the clicked element. -/
def timerCallback (liteYt : Nat) (s : VState) : VState :=
  mapPlayers (timerEffect liteYt) s

/-- One run of the `click` listener: `e.target.closest('lite-youtube')` is the target itself
when it is a `<lite-youtube>`, and the callback is scheduled. -/
def clickListener (target : Nat) (s : VState) : VState :=
  match findPlayer s target with
  | none => s
  | some t => if !t.isYt then s else { s with timers := s.timers ++ [target] }

/-- Dispatch of a `click` event: every listener of the container of the target runs. -/
def dispatchClick (target : Nat) (s : VState) : VState :=
  (clickListener target)^[listenersAt s target] s

/-- The oldest pending timeout fires. -/
def fireTimer (s : VState) : VState :=
  match s.timers with
  | [] => s
  | t :: rest => timerCallback t { s with timers := rest }

/-- All pending timeouts fire, oldest first. -/
def settle (s : VState) : VState :=
  s.timers.foldl (fun acc t => timerCallback t acc) { s with timers := [] }

/-- Property read `v[key]`: `none` is a thrown `TypeError` (read on `null`),
`some none` is `undefined`. -/
def JVal.prop (v : JVal) (key : String) : Option (Option JVal) :=
  match v with
  | .null => none
  | .obj fields => some ((fields.find? (fun kv => kv.1 == key)).map Prod.snd)
  | _ => some none

/-- JavaScript truthiness of a value that may be `undefined`. -/
def JVal.truthy : Option JVal → Bool
  | none => false
  | some .null => false
  | some (.bool b) => b
  | some (.num x) => decide (x ≠ 0)
  | some (.str s) => !(s == "")
  | some (.arr _) => true
  | some (.obj _) => true

/-- The test `x === 'video-progress'`. -/
def JVal.isVideoProgress : Option JVal → Bool
  | some (.str s) => s == "video-progress"
  | _ => false

/-- The test `x === 1`. -/
def JVal.isOne : Option JVal → Bool
  | some (.num x) => decide (x = 1)
  | _ => false

/-- The loop body `v => v.pause()` over the `video` selector, seen from one element. -/
def pauseNativeEffect (p : Player) : Player :=
  match p.media with
  | .video _ _ => p.pause
  | .liteYoutube _ _ => p

/-- The statement `document.querySelectorAll('... video').forEach(v => v.pause())`. -/
def pauseAllNative (s : VState) : VState :=
  mapPlayers pauseNativeEffect s

/-- The condition `data.event === 'video-progress' || (data.info && data.info.playerState === 1)`;
`none` when evaluating it throws. -/
def messageMatches (data : JVal) : Option Bool :=
  match data.prop "event" with
  | none => none
  | some ev =>
    if JVal.isVideoProgress ev then some true
    else
      match data.prop "info" with
      | none => none
      | some info =>
        if JVal.truthy info then
          match info with
          | none => some false
          | some i =>
            match i.prop "playerState" with
            | none => none
            | some st => some (JVal.isOne st)
        else some false

/-- The listener of `message` events on `window`. -/
def onMessage (parse : String → Option JVal) (origin data : String) (s : VState) : VState :=
  if origin != "https://www.youtube.com" then s
  else
    match parse data with
    | none => s
    | some d =>
      match messageMatches d with
      | some true => pauseAllNative s
      | _ => s

/-! ## Events of the host -/

/-- The browser starts playback of the native element `target`. -/
def startPlayback (target : Nat) (s : VState) : VState :=
  mapPlayers (fun p => if p.node == target && p.isVideo then { p with playing := true } else p) s

/-- The `lite-youtube` component reacts to a click: it inserts its iframe, which starts
playing. -/
def activate (target : Nat) (s : VState) : VState :=
  mapPlayers (fun p =>
    if p.node == target && p.isYt then
      { p with hasIframe := true, playing := true, pauseSent := false }
    else p) s

/-- The embedded player `sender`, already loaded, starts playing on its own (the user
acts inside its iframe, which raises no event in the page). The message by which the
player reports it is a separate event, which may come later or not at all. -/
def resume (sender : Nat) (s : VState) : VState :=
  mapPlayers (fun p =>
    if p.node == sender && p.isYt && p.hasIframe then
      { p with playing := true, pauseSent := false }
    else p) s

/-- The element `node` stops: its playback ends, the user pauses it with the controls of
the element itself, or an embedded player obeys a pause command that was posted to it. No
listener of the script reacts to that. -/
def stopPlayback (node : Nat) (s : VState) : VState :=
  mapPlayers (fun p => if p.node == node then { p with playing := false } else p) s

/-- The text `{"info":{"playerState":1}}`. -/
def nowPlayingText : String := "\x7b\"info\":\x7b\"playerState\":1\x7d\x7d"

/-- The value denoted by `nowPlayingText`. -/
def nowPlayingVal : JVal := .obj [("info", .obj [("playerState", .num 1)])]

/-- What can happen to the video section. -/
inductive Event where
  | toggle
  | play (target : Nat)
  | clickYt (target : Nat)
  | timer
  | message (origin : String) (data : String)
  | resume (sender : Nat)
  | stop (node : Nat)
  deriving DecidableEq, Repr

/-- One event: the effect of the host followed by the listeners of the script. -/
def step (parse : String → Option JVal) (s : VState) : Event → VState
  | .toggle => onToggle s
  | .play target => dispatchPlay target (startPlayback target s)
  | .clickYt target => dispatchClick target (activate target s)
  | .timer => fireTimer s
  | .message origin data => onMessage parse origin data s
  | .resume sender => resume sender s
  | .stop node => stopPlayback node s

/-- A sequence of events. -/
def run (parse : String → Option JVal) (s : VState) (evs : List Event) : VState :=
  evs.foldl (step parse) s

/-- A document as the script finds it: the two containers hold no card, no timeout is
pending and none of the listeners of `attachVideoEvents` is registered yet. -/
def Blank (page : VState) : Prop :=
  page.carousel = [] ∧ page.grid = [] ∧ page.timers = [] ∧
    page.carouselListeners = 0 ∧ page.gridListeners = 0

/-! ## Predicates and sample data used in the statements -/

/-- The pause of one element by a listener: `pause()` on a native element, the posted
command on an embedded one. -/
def Player.hit (p : Player) : Player :=
  match p.media with
  | .video _ _ => p.pause
  | .liteYoutube _ _ => p.postPause

/-- The element after `k` pauses by listeners: a native element is paused and an embedded
one has been sent the command; the counter has moved by `k`. -/
def Player.hitBy (k : Nat) (p : Player) : Player :=
  { p with
    playing := p.playing && p.isYt
    pauseCalls := p.pauseCalls + k
    pauseSent := p.pauseSent || p.isYt }

/-- Pause an element when the condition holds for it. -/
def pauseIf (c : Player → Bool) (p : Player) : Player :=
  if c p then p.hit else p

/-- An instance that plays and has not been sent a pause command since it started. -/
def Player.loud (p : Player) : Bool :=
  p.playing && !(p.isYt && p.pauseSent)

/-- Number of instances in both containers that play without having been sent a pause
command since they started. -/
def loudCount (s : VState) : Nat :=
  ((players s).filter Player.loud).length

/-- Which elements one run of the `play` listener pauses. -/
def playHits (target : Nat) (p : Player) : Bool :=
  match p.media with
  | .video _ _ => p.node != target
  | .liteYoutube _ _ => p.hasIframe

/-- Which elements one timeout callback pauses. -/
def timerHits (liteYt : Nat) (p : Player) : Bool :=
  match p.media with
  | .video _ _ => true
  | .liteYoutube _ _ => p.node != liteYt && p.hasIframe

/-- What a card shows, apart from the identity and the run-time state of its element. -/
def Card.shape (c : Card) : Nat × String × String × Media :=
  (c.dataIdx, c.heading, c.metaLine, c.player.media)

/-- An optional text of a descriptor that is given: present and not empty. -/
def givenText (o : Option Text) : Option String :=
  match o with
  | some t => if t.val = "" then none else some t.val
  | none => none

/-- The card is built from the descriptor, in the words of the data model: it carries the
index as `data-idx` and the title as its heading; its meta line is the duration label, a
space, and the caption after `· `, each when given; its media element is the embedded
player of the video identifier when one is given, and otherwise a native video with the
poster and the source that are given. -/
def Shows (v : VideoDesc) (idx : Nat) (c : Card) : Prop :=
  c.dataIdx = idx ∧ c.heading = v.title.val ∧
    c.metaLine =
      (match givenText v.duration with
        | some d => d
        | none => "") ++ " " ++
      (match givenText v.caption with
        | some k => "· " ++ k
        | none => "") ∧
    c.player.media =
      (match givenText v.youtubeId with
        | some id => Media.liteYoutube id ("Play: " ++ v.title.val)
        | none => Media.video (givenText v.poster) (givenText v.src))

/-- The cards are built from the descriptors, one card per descriptor, in order, the card
at position `i` from the descriptor at position `i` with `data-idx="i"`. -/
def ShowsAll (list : List VideoDesc) (cards : List Card) : Prop :=
  cards.length = list.length ∧
    ∀ i v c, list[i]? = some v → cards[i]? = some c → Shows v i c

/-- The grid is shown: it does not carry the class `hidden`. -/
def gridShown (s : VState) : Bool := !s.gridHidden

/-- The carousel is shown: its inline `display` is not `none`. -/
def carouselShown (s : VState) : Bool := s.carouselDisplay != "none"

/-- Well-formedness of a state of the video section: element identities are distinct and
older than `nextNode`, every container that holds cards has its listeners, and an
embedded player that plays has its iframe. -/
structure Inv (s : VState) : Prop where
  nodup : ((players s).map Player.node).Nodup
  fresh : ∀ p ∈ players s, p.node < s.nextNode
  wiredC : 1 ≤ s.carouselListeners
  wiredG : s.grid ≠ [] → 1 ≤ s.gridListeners
  iframe : ∀ p ∈ players s, p.isYt = true → p.playing = true → p.hasIframe = true

/-- A change of one element that keeps its identity and kind and never leaves an embedded
player playing without an iframe. -/
def Tame (f : Player → Player) : Prop :=
  ∀ p, (f p).node = p.node ∧ (f p).media = p.media ∧
    ((p.isYt = true → p.playing = true → p.hasIframe = true) →
      (f p).isYt = true → (f p).playing = true → (f p).hasIframe = true)

/-- A parser that knows the text `{"info":{"playerState":1}}` only. -/
def parseOnly (text : String) : Option JVal :=
  if text = nowPlayingText then some nowPlayingVal else none

/-- A page with empty containers, the grid hidden and the label of the compact surface. -/
def page0 : VState :=
  { vids := [], isExpanded := false, carousel := [], grid := [], carouselDisplay := "",
    gridHidden := true, label := "View all videos", carouselListeners := 0,
    gridListeners := 0, timers := [], nextNode := 0 }

/-- The text of a literal of the examples; the empty text when the literal is not plain. -/
def plainText (s : String) : Text :=
  if h : isPlain s = true then { val := s, plain := h } else { val := "", plain := rfl }

/-- A native descriptor with a source file. -/
def nativeDesc (title : String) : VideoDesc :=
  { title := plainText title, duration := none, caption := none, youtubeId := none,
    poster := none, src := some (plainText (title ++ ".mp4")) }

/-- An embedded descriptor. -/
def embeddedDesc (title : String) : VideoDesc :=
  { title := plainText title, duration := some (plainText "1:00"), caption := none,
    youtubeId := some (plainText title), poster := none, src := none }

/-- A fixture of four descriptors: native, embedded, embedded, native. -/
def fixture4 : List VideoDesc :=
  [nativeDesc "a", embeddedDesc "b", embeddedDesc "c", nativeDesc "d"]

/-- A condition that does not look at the playback state or at the pause counter. -/
def Stable (c : Player → Bool) : Prop := ∀ p, c p.hit = c p

/-- The part of the state that only the toggle and the loader write. -/
def chrome (s : VState) :
    List VideoDesc × Bool × String × Bool × String × Nat × Nat × Nat :=
  (s.vids, s.isExpanded, s.carouselDisplay, s.gridHidden, s.label, s.carouselListeners,
    s.gridListeners, s.nextNode)

/-- Two states that differ at most in the run-time state of the elements and in the
pending timeouts. -/
def SameLayout (s s' : VState) : Prop :=
  chrome s' = chrome s ∧ s'.carousel.map Card.shape = s.carousel.map Card.shape ∧
    s'.grid.map Card.shape = s.grid.map Card.shape

/-- The visibility of the two containers and the label agree with `isExpanded`. -/
def Synced (s : VState) : Prop :=
  (s.isExpanded = true →
      s.gridHidden = false ∧ s.carouselDisplay = "none" ∧ s.label = "Show less") ∧
    (s.isExpanded = false →
      s.gridHidden = true ∧ s.carouselDisplay = "" ∧ s.label = "View all videos")

/-! ## The message shapes, in the words of the specification -/

/-- The value has `event` equal to `'video-progress'`. -/
def hasVideoProgress (d : JVal) : Prop :=
  d.prop "event" = some (some (JVal.str "video-progress"))

/-- The value has `info.playerState` equal to `1`. -/
def hasNowPlayingState (d : JVal) : Prop :=
  ∃ i, d.prop "info" = some (some i) ∧ i.prop "playerState" = some (some (JVal.num 1))

/-- A parser that knows five texts: `null`, `5`, `[]`, the now-playing text and the same
object with player state `2`. -/
def parseSample (text : String) : Option JVal :=
  if text = "null" then some JVal.null
  else if text = "5" then some (JVal.num 5)
  else if text = "[]" then some (JVal.arr [])
  else if text = nowPlayingText then some nowPlayingVal
  else if text = "\x7b\"info\":\x7b\"playerState\":2\x7d\x7d" then
    some (JVal.obj [("info", JVal.obj [("playerState", JVal.num 2)])])
  else none

/-! ## Loading the fixture -/

/-- How the request `fetch('data/videos.json')` ends: the promise rejects, or a response
arrives with its `ok` flag and a body that `res.json()` reads (`none` when it rejects). -/
inductive FetchOutcome where
  | networkError
  | response (ok : Bool) (body : Option (List VideoDesc))
  deriving DecidableEq, Repr

/-- The load has failed: network error, non-OK response, or a body that is not JSON. -/
def FetchOutcome.failed : FetchOutcome → Bool
  | .networkError => true
  | .response ok body => !ok || body.isNone

/-- The `try` block of `videos`, from the `fetch` on; `.error` is a thrown exception.
`if (!res.ok) return;` leaves the block without throwing. -/
def videosTry (page : VState) : FetchOutcome → Except String VState
  | .networkError => .error "TypeError: Failed to fetch"
  | .response false _ => .ok page
  | .response true none => .error "SyntaxError"
  | .response true (some vids) => .ok (loadVideos page vids)

/-- What `videos` leaves behind: the state of the video section and the first arguments
of the calls of `console.warn`. -/
structure LoadResult where
  state : VState
  warnings : List String
  deriving DecidableEq, Repr

/-- The function `videos`: the `try` block and its `catch (e) { console.warn(...) }`. -/
def videos (page : VState) (outcome : FetchOutcome) : LoadResult :=
  match videosTry page outcome with
  | .ok s => { state := s, warnings := [] }
  | .error _ => { state := page, warnings := ["Videos not loaded"] }

/-! ## Strings of the host -/

/-- The code points that `String.prototype.trim` strips: the `WhiteSpace` and
`LineTerminator` productions of ECMAScript. -/
def isJsSpace (c : Char) : Bool :=
  c.toNat == 0x09 || c.toNat == 0x0A || c.toNat == 0x0B || c.toNat == 0x0C ||
    c.toNat == 0x0D || c.toNat == 0x20 || c.toNat == 0xA0 || c.toNat == 0x1680 ||
    (0x2000 ≤ c.toNat && c.toNat ≤ 0x200A) || c.toNat == 0x2028 || c.toNat == 0x2029 ||
    c.toNat == 0x202F || c.toNat == 0x205F || c.toNat == 0x3000 || c.toNat == 0xFEFF

/-- The method `String.prototype.trim`. -/
def jsTrim (s : String) : String :=
  String.mk ((s.data.dropWhile isJsSpace).reverse.dropWhile isJsSpace).reverse

/-- The method `String.prototype.includes`. -/
def jsIncludes (hay needle : String) : Bool :=
  decide (needle.data <:+: hay.data)

/-- A string without any character other than white space; the empty string is one. -/
def Blankish (s : String) : Prop :=
  ∀ c ∈ s.data, isJsSpace c = true

/-- Lower-casing of the letters `A` to `Z` only, a stand-in for `toLowerCase` in examples. -/
def asciiLower (s : String) : String :=
  String.mk (s.data.map Char.toLower)

/-! ## The contact form -/

/-- A value of a `FormData` entry: a string, or the file of a file input. -/
inductive FormValue where
  | text (s : String)
  | file (name : String)
  deriving DecidableEq, Repr

/-- The read `data[k]` on `Object.fromEntries(new FormData(form).entries())`: the value of
the last entry named `k`, `none` when there is no such entry. -/
def formField (entries : List (String × FormValue)) (k : String) : Option FormValue :=
  (entries.reverse.find? (fun e => e.1 == k)).map Prod.snd

/-- The expression `String(data[k]||'')`. -/
def fieldText : Option FormValue → String
  | none => ""
  | some (.text s) => s
  | some (.file _) => "[object File]"

/-- What the submit listener does: the text of the alert and whether `form.reset()` ran. -/
structure SubmitResult where
  alert : String
  reset : Bool
  deriving DecidableEq, Repr

/-- The list `required.filter(k => !String(data[k]||'').trim())`. -/
def missingFields (entries : List (String × FormValue)) : List String :=
  ["name", "phone", "email"].filter
    (fun k => (jsTrim (fieldText (formField entries k))) == "")

/-- The `submit` listener of `#contact-form`. -/
def contactSubmit (entries : List (String × FormValue)) : SubmitResult :=
  if (missingFields entries).length != 0 then
    { alert := "Please fill all required fields.", reset := false }
  else
    { alert := "Thanks! We\x27ll contact you shortly.", reset := true }

instance blankishDecidable (s : String) : Decidable (Blankish s) := by
  unfold Blankish
  infer_instance

/-- A required field is absent, empty or made of white space only, said of the submitted
entries: no entry carries the name; or the entry of that name (the last one, when the
form repeats the name) is a text that is empty or has no character other than white
space. An entry that is a file is neither. -/
def fieldBlank (entries : List (String × FormValue)) (k : String) : Prop :=
  match (entries.filter (fun e => e.1 == k)).getLast? with
  | none => True
  | some (_, FormValue.text s) => s = "" ∨ Blankish s
  | some (_, FormValue.file _) => False

instance fieldBlankDecidable (entries : List (String × FormValue)) (k : String) :
    Decidable (fieldBlank entries k) := by
  unfold fieldBlank
  split <;> infer_instance

/-- The name of one of the three required fields. -/
def isRequired (k : String) : Bool :=
  k == "name" || k == "phone" || k == "email"

/-! ## The list of procedures -/

/-- An entry of `data/procedures.json`, with the properties that `render` reads. -/
structure ProcItem where
  slug : String
  title : String
  category : String
  icon : String
  image : String
  summary : String
  details : String
  deriving DecidableEq, Repr

/-- A child of `#proc-list`: a card, or the paragraph shown for an empty result. -/
inductive ProcNode where
  | card (image icon category title summary slug : String)
  | empty (text : String)
  deriving DecidableEq, Repr

/-- The card that `render` builds for an item. -/
def procCard (i : ProcItem) : ProcNode :=
  ProcNode.card i.image i.icon i.category i.title i.summary i.slug

/-- The predicate given to `items.filter` in `render`, for a needle already computed;
`lower` is `String.prototype.toLowerCase`. -/
def procKeeps (lower : String → String) (filterCat needle : String) (i : ProcItem) : Bool :=
  (filterCat == "All" || i.category == filterCat) &&
    (needle == "" || jsIncludes (lower i.title) needle || jsIncludes (lower i.summary) needle ||
      jsIncludes (lower i.details) needle)

/-- The function `render(filterCat, q)`: the children of `#proc-list` afterwards. -/
def render (lower : String → String) (items : List ProcItem) (filterCat q : String) :
    List ProcNode :=
  let needle := lower (jsTrim q)
  let cards := (items.filter (procKeeps lower filterCat needle)).map procCard
  if cards.length == 0 then
    [ProcNode.empty "No procedures match your search. Try a different term."]
  else cards

/-- The filter in the words of the claim: the category is `All` or that of the item, and
the trimmed query is empty or, lower-cased, a substring of the lower-cased title, summary
or details. -/
def procMatches (lower : String → String) (filterCat q : String) (i : ProcItem) : Prop :=
  (filterCat = "All" ∨ i.category = filterCat) ∧
    (jsTrim q = "" ∨ (lower (jsTrim q)).data <:+: (lower i.title).data ∨
      (lower (jsTrim q)).data <:+: (lower i.summary).data ∨
      (lower (jsTrim q)).data <:+: (lower i.details).data)

/-- Three procedures in two categories. -/
def procSample : List ProcItem :=
  [ { slug := "whitening", title := "Teeth Whitening", category := "Cosmetic", icon := "W",
      image := "w.jpg", summary := "Brighter smile", details := "Peroxide gel" },
    { slug := "implant", title := "Dental Implant", category := "Restorative", icon := "I",
      image := "i.jpg", summary := "Replace a tooth", details := "Titanium post" },
    { slug := "veneers", title := "Veneers", category := "Cosmetic", icon := "V",
      image := "v.jpg", summary := "Thin shells", details := "Porcelain, smile design" } ]

instance procMatchesDecidable (lower : String → String) (filterCat q : String) (i : ProcItem) :
    Decidable (procMatches lower filterCat q i) := by
  unfold procMatches
  infer_instance

/-! ## The lightbox of the gallery -/

/-- An entry of `data/photos.json`. -/
structure Photo where
  src : String
  alt : Option String
  deriving DecidableEq, Repr

/-- The part of the document that the lightbox writes: `modal.hidden`, `modal.dataset.idx`
(`none` while the attribute is absent), the image, the caption and the overflow of the
body. -/
structure Lightbox where
  hidden : Bool
  idx : Option Int
  imgSrc : String
  imgAlt : String
  caption : String
  bodyOverflow : String
  deriving DecidableEq, Repr

/-- The read `photos[i]` for an integer `i`. -/
def photoAt (photos : List Photo) (i : Int) : Option Photo :=
  if 0 ≤ i then photos[i.toNat]? else none

/-- The function `openAt(i)`. -/
def openAt (photos : List Photo) (i : Int) (m : Lightbox) : Lightbox :=
  match photoAt photos i with
  | none => m
  | some p =>
    { hidden := false
      idx := some i
      imgSrc := p.src
      imgAlt := if truthy p.alt then orEmpty p.alt else "Clinic photo"
      caption := orEmpty p.alt
      bodyOverflow := "hidden" }

/-- The function `close()` of the gallery. -/
def closeLightbox (m : Lightbox) : Lightbox :=
  { m with hidden := true, bodyOverflow := "" }

/-- The operator `%` of JavaScript on integers: the remainder has the sign of the
dividend. -/
def jsRem (a b : Int) : Int := Int.tmod a b

/-- The `keydown` listener of the gallery. -/
def lightboxKeydown (photos : List Photo) (key : String) (m : Lightbox) : Lightbox :=
  if m.hidden then m
  else
    let m1 := if key == "Escape" then closeLightbox m else m
    if key == "ArrowRight" || key == "ArrowLeft" then
      let i := m1.idx.getD 0 + (if key == "ArrowRight" then 1 else -1)
      openAt photos (jsRem (i + photos.length) photos.length) m1
    else m1

/-- The lightbox is open on the photo at index `j`, in the words of the claim: the modal
is not hidden, the page behind it does not scroll, the index is recorded, and the image
and the caption are those of that photo, the alternative text of the image being
`Clinic photo` when the photo has none. -/
def ShowsPhoto (photos : List Photo) (j : Int) (m : Lightbox) : Prop :=
  m.hidden = false ∧ m.bodyOverflow = "hidden" ∧ m.idx = some j ∧ 0 ≤ j ∧
    ∃ p, photos[j.toNat]? = some p ∧ m.imgSrc = p.src ∧
      m.imgAlt = (match p.alt with
        | some a => if a = "" then "Clinic photo" else a
        | none => "Clinic photo") ∧
      m.caption = (match p.alt with
        | some a => a
        | none => "")

/-- Three photos, the second without a caption. -/
def photoSample : List Photo :=
  [ { src := "a.jpg", alt := some "Reception" }, { src := "b.jpg", alt := none },
    { src := "c.jpg", alt := some "Treatment room" } ]

/-- The lightbox showing the photo at index `i`. -/
def lightboxAt (i : Int) : Lightbox :=
  { hidden := false, idx := some i, imgSrc := "", imgAlt := "", caption := "",
    bodyOverflow := "hidden" }

/-! ## The before/after slider -/

/-- A number of the script: `NaN`, one of the two infinities, or a finite value. The two
zeros are one value here, as they are for `===` and for `<=`. -/
inductive JsNum where
  | nan
  | negInf
  | fin (q : ℚ)
  | posInf
  deriving DecidableEq, Repr

/-- The result of an arithmetic operation whose exact value is `q`: the nearest number that
the machine has, `fl q`, or, where `fl q` is `none` because `q` lies beyond the largest
one, the infinity on the side of `q`. -/
def JsNum.ofExact (fl : ℚ → Option ℚ) (q : ℚ) : JsNum :=
  match fl q with
  | some r => .fin r
  | none => if 0 < q then .posInf else .negInf

/-- The comparison `a <= b`, which is false when either side is `NaN`. -/
def JsNum.le : JsNum → JsNum → Bool
  | .nan, _ => false
  | _, .nan => false
  | .negInf, _ => true
  | _, .posInf => true
  | .fin a, .fin b => decide (a ≤ b)
  | .fin _, .negInf => false
  | .posInf, .negInf => false
  | .posInf, .fin _ => false

/-- The builtin `Math.max(a, b)`: `NaN` when either argument is `NaN`, else the larger. -/
def Math.max : JsNum → JsNum → JsNum
  | .nan, _ => .nan
  | _, .nan => .nan
  | a, b => if a.le b then b else a

/-- The builtin `Math.min(a, b)`: `NaN` when either argument is `NaN`, else the smaller. -/
def Math.min : JsNum → JsNum → JsNum
  | .nan, _ => .nan
  | _, .nan => .nan
  | a, b => if a.le b then a else b

/-- The builtin `Math.round(x)`: the integer nearest to `x`, the upper one of two that are
equally near; `NaN` and the infinities are returned as they are. -/
def Math.round : JsNum → JsNum
  | .fin q => .fin ⌊q + 1 / 2⌋
  | x => x

/-- The sum `a + b`. -/
def JsNum.add (fl : ℚ → Option ℚ) : JsNum → JsNum → JsNum
  | .nan, _ => .nan
  | _, .nan => .nan
  | .posInf, .negInf => .nan
  | .negInf, .posInf => .nan
  | .posInf, _ => .posInf
  | _, .posInf => .posInf
  | .negInf, _ => .negInf
  | _, .negInf => .negInf
  | .fin a, .fin b => JsNum.ofExact fl (a + b)

/-- The difference `a - b`. -/
def JsNum.sub (fl : ℚ → Option ℚ) : JsNum → JsNum → JsNum
  | .nan, _ => .nan
  | _, .nan => .nan
  | .posInf, .posInf => .nan
  | .negInf, .negInf => .nan
  | .posInf, _ => .posInf
  | _, .negInf => .posInf
  | .negInf, _ => .negInf
  | _, .posInf => .negInf
  | .fin a, .fin b => JsNum.ofExact fl (a - b)

/-- The product `a * b`; an infinity times zero is `NaN`. -/
def JsNum.mul (fl : ℚ → Option ℚ) : JsNum → JsNum → JsNum
  | .nan, _ => .nan
  | _, .nan => .nan
  | .posInf, .posInf => .posInf
  | .negInf, .negInf => .posInf
  | .posInf, .negInf => .negInf
  | .negInf, .posInf => .negInf
  | .posInf, .fin b => if b = 0 then .nan else if 0 < b then .posInf else .negInf
  | .negInf, .fin b => if b = 0 then .nan else if 0 < b then .negInf else .posInf
  | .fin a, .posInf => if a = 0 then .nan else if 0 < a then .posInf else .negInf
  | .fin a, .negInf => if a = 0 then .nan else if 0 < a then .negInf else .posInf
  | .fin a, .fin b => JsNum.ofExact fl (a * b)

/-- The quotient `a / b` for a divisor that is not `-0`: zero by zero and an infinity by an
infinity are `NaN`, any other number by zero is the infinity of its sign. The only divisor
in this script is the width of a rectangle, which is never negative. -/
def JsNum.div (fl : ℚ → Option ℚ) : JsNum → JsNum → JsNum
  | .nan, _ => .nan
  | _, .nan => .nan
  | .posInf, .posInf => .nan
  | .posInf, .negInf => .nan
  | .negInf, .posInf => .nan
  | .negInf, .negInf => .nan
  | .posInf, .fin b => if b < 0 then .negInf else .posInf
  | .negInf, .fin b => if b < 0 then .posInf else .negInf
  | .fin _, .posInf => .fin 0
  | .fin _, .negInf => .fin 0
  | .fin a, .fin b =>
    if b = 0 then (if a = 0 then .nan else if 0 < a then .posInf else .negInf)
    else JsNum.ofExact fl (a / b)

/-- The function `clamp(n, min, max)`. -/
def clamp (n lo hi : JsNum) : JsNum := Math.min (Math.max n lo) hi

/-- The variables of `initBeforeAfter`: `pos` and `dragging`, and what `setPos` wrote last
to the document (the number in `--pos` and in `left`, and the number in `aria-valuenow`);
`none` while `setPos` has not run. -/
structure Slider where
  pos : JsNum
  dragging : Bool
  shown : Option JsNum
  ariaValueNow : Option JsNum
  deriving DecidableEq, Repr

/-- The function `setPos(p)`. -/
def setPos (p : JsNum) (s : Slider) : Slider :=
  { s with
    pos := clamp p (.fin 0) (.fin 100)
    shown := some (clamp p (.fin 0) (.fin 100))
    ariaValueNow := some (Math.round (clamp p (.fin 0) (.fin 100))) }

/-- The state after `let pos = 50`. -/
def sliderInit : Slider :=
  { pos := .fin 50, dragging := false, shown := none, ariaValueNow := none }

/-- The function `fromClientX(x)` when the rectangle of the track has the left edge `left`
and the width `width`: `((x - left) / width) * 100`. -/
def fromClientX (fl : ℚ → Option ℚ) (x left width : JsNum) : JsNum :=
  JsNum.mul fl (JsNum.div fl (JsNum.sub fl x left) width) (.fin 100)

/-- The events of the slider. A position `p` is the value of `fromClientX(e.clientX)` at
the time of the event. -/
inductive SliderEvent where
  | start (p : JsNum)
  | move (p : JsNum)
  | finish
  | click (p : JsNum)
  | keydown (shiftKey : Bool) (key : String)
  deriving DecidableEq, Repr

/-- The `keydown` listener of the handle. -/
def sliderKeydown (fl : ℚ → Option ℚ) (shiftKey : Bool) (key : String) (s : Slider) :
    Slider :=
  let step : JsNum := if shiftKey then .fin 10 else .fin 2
  let s1 := if key == "ArrowLeft" then setPos (JsNum.sub fl s.pos step) s else s
  let s2 := if key == "ArrowRight" then setPos (JsNum.add fl s1.pos step) s1 else s1
  let s3 := if key == "Home" then setPos (.fin 0) s2 else s2
  if key == "End" then setPos (.fin 100) s3 else s3

/-- The listeners of the slider: `start` (mousedown, touchstart), `move` (mousemove,
touchmove), `end` (mouseup, touchend), the click on the track and the keys. -/
def sliderStep (fl : ℚ → Option ℚ) (s : Slider) : SliderEvent → Slider
  | .start p => setPos p { s with dragging := true }
  | .move p => if !s.dragging then s else setPos p s
  | .finish => { s with dragging := false }
  | .click p => setPos p s
  | .keydown shiftKey key => sliderKeydown fl shiftKey key s

/-- A sequence of slider events. -/
def sliderRun (fl : ℚ → Option ℚ) (s : Slider) (evs : List SliderEvent) : Slider :=
  evs.foldl (sliderStep fl) s

/-- Whether the event comes with a position that is `NaN`. -/
def SliderEvent.isNaN : SliderEvent → Bool
  | .start p => p == .nan
  | .move p => p == .nan
  | .click p => p == .nan
  | _ => false

/-- Arithmetic without rounding, for sample runs. -/
def exactly (q : ℚ) : Option ℚ := some q

/-! # Theorems -/

/-! ## Elementary facts about the queries -/

theorem players_mapPlayers (f : Player → Player) (s : VState) :
    players (mapPlayers f s) = (players s).map f := by
  simp [players, mapPlayers, List.map_map, Function.comp_def]

theorem mapPlayers_mapPlayers (f g : Player → Player) (s : VState) :
    mapPlayers f (mapPlayers g s) = mapPlayers (f ∘ g) s := by
  simp [mapPlayers, List.map_map, Function.comp_def]

theorem mapPlayers_id (s : VState) : mapPlayers id s = s := by
  simp [mapPlayers]

theorem listenersAt_mapPlayers (f : Player → Player) (hf : ∀ p, (f p).node = p.node)
    (s : VState) (n : Nat) : listenersAt (mapPlayers f s) n = listenersAt s n := by
  simp [listenersAt, mapPlayers, List.any_map, Function.comp_def, hf]

theorem findPlayer_mapPlayers (f : Player → Player) (hf : ∀ p, (f p).node = p.node)
    (s : VState) (n : Nat) : findPlayer (mapPlayers f s) n = (findPlayer s n).map f := by
  simp [findPlayer, players_mapPlayers, List.find?_map, Function.comp_def, hf]

theorem findPlayer_some {s : VState} {n : Nat} {p : Player} (h : findPlayer s n = some p) :
    p ∈ players s ∧ p.node = n := by
  unfold findPlayer at h
  refine ⟨List.mem_of_find?_eq_some h, ?_⟩
  have := List.find?_some h
  simpa using this

/-- In a list without repeated identities, the search by identity returns the element. -/
theorem find_of_nodup (l : List Player) (hn : (l.map Player.node).Nodup) (p : Player)
    (hp : p ∈ l) : l.find? (fun q => q.node == p.node) = some p := by
  induction l with
  | nil => simp at hp
  | cons a l ih =>
    simp only [List.map_cons, List.nodup_cons] at hn
    rcases List.mem_cons.mp hp with rfl | hmem
    · simp
    · have hne : a.node ≠ p.node := by
        intro h
        exact hn.1 (h ▸ List.mem_map_of_mem Player.node hmem)
      simp [List.find?_cons, hne, ih hn.2 hmem]

theorem listenersAt_pos_of_mem {s : VState} (hI : Inv s) {p : Player} (h : p ∈ players s) :
    1 ≤ listenersAt s p.node := by
  unfold listenersAt
  simp only [players, List.map_append, List.mem_append, List.mem_map] at h
  split
  · exact hI.wiredC
  · rename_i hc
    rcases h with ⟨c, hc1, rfl⟩ | ⟨c, hc1, rfl⟩
    · exact absurd (List.any_eq_true.mpr ⟨c, hc1, by simp⟩) hc
    · have : s.grid.any (fun d => d.player.node == c.player.node) = true :=
        List.any_eq_true.mpr ⟨c, hc1, by simp⟩
      rw [if_pos this]
      exact hI.wiredG (List.ne_nil_of_mem hc1)

/-! ## Repeated pausing -/

theorem playEffect_eq (target : Nat) : playEffect target = pauseIf (playHits target) := by
  funext p
  unfold playEffect pauseIf playHits Player.hit
  cases p.media <;> rfl

theorem timerEffect_eq (liteYt : Nat) : timerEffect liteYt = pauseIf (timerHits liteYt) := by
  funext p
  unfold timerEffect pauseIf timerHits Player.hit
  cases p.media <;> simp

theorem pauseNativeEffect_eq : pauseNativeEffect = pauseIf Player.isVideo := by
  funext p
  unfold pauseNativeEffect pauseIf Player.isVideo Player.hit
  cases p.media <;> simp

theorem hit_eq_hitBy (p : Player) : p.hit = p.hitBy 1 := by
  unfold Player.hit Player.hitBy Player.pause Player.postPause Player.isYt
  cases p.media <;> simp

theorem hitBy_hit (k : Nat) (p : Player) : (p.hitBy k).hit = p.hitBy (k + 1) := by
  unfold Player.hit Player.hitBy Player.pause Player.postPause Player.isYt
  cases p.media <;> simp [Nat.add_assoc]

theorem playHits_stable (t : Nat) : Stable (playHits t) := by
  intro p
  unfold playHits Player.hit Player.pause Player.postPause
  cases p.media <;> rfl

theorem timerHits_stable (t : Nat) : Stable (timerHits t) := by
  intro p
  unfold timerHits Player.hit Player.pause Player.postPause
  cases p.media <;> rfl

theorem hit_iterate (k : Nat) (p : Player) :
    Player.hit^[k] p = if 0 < k then p.hitBy k else p := by
  induction k with
  | zero => simp
  | succ k ih =>
    rw [Function.iterate_succ_apply', ih]
    by_cases hk : 0 < k
    · simp [hk, hitBy_hit]
    · have : k = 0 := by omega
      subst this
      simp [hit_eq_hitBy]

theorem pauseIf_iterate_aux (c : Player → Bool) (hc : Stable c) (k : Nat) (p : Player) :
    (pauseIf c)^[k] p = if c p = true then Player.hit^[k] p else p := by
  induction k generalizing p with
  | zero => simp
  | succ k ih =>
    rw [Function.iterate_succ_apply, Function.iterate_succ_apply, ih]
    by_cases h : c p = true
    · have h2 : c p.hit = true := by rw [hc]; exact h
      simp [pauseIf, h, h2]
    · simp [pauseIf, h]

theorem pauseIf_iterate (c : Player → Bool) (hc : Stable c) (k : Nat) (p : Player) :
    (pauseIf c)^[k] p = if c p = true ∧ 0 < k then p.hitBy k else p := by
  rw [pauseIf_iterate_aux c hc, hit_iterate]
  by_cases h : c p = true <;> by_cases hk : 0 < k <;> simp [h, hk]

theorem pauseIf_tame (c : Player → Bool) : Tame (pauseIf c) := by
  intro p
  unfold pauseIf
  by_cases h : c p = true
  · rw [if_pos h, hit_eq_hitBy]
    refine ⟨rfl, rfl, ?_⟩
    intro hi hy hp
    have hy2 : p.isYt = true := hy
    have hp2 : (p.playing && p.isYt) = true := hp
    rw [hy2, Bool.and_true] at hp2
    exact hi hy2 hp2
  · simp [h]

theorem isYt_eq_not_isVideo (p : Player) : p.isYt = !p.isVideo := by
  unfold Player.isYt Player.isVideo
  cases p.media <;> rfl

theorem hit_playing_video {p : Player} (h : p.isVideo = true) : p.hit.playing = false := by
  rw [hit_eq_hitBy]
  show (p.playing && p.isYt) = false
  rw [isYt_eq_not_isVideo, h]
  simp

theorem hitBy_not_loud (k : Nat) (p : Player) : (p.hitBy k).loud = false := by
  unfold Player.loud Player.hitBy Player.isYt
  cases p.media <;> simp

theorem loud_pauseIf {c : Player → Bool} {q : Player} (h : (pauseIf c q).loud = true) :
    q.loud = true ∧ c q = false := by
  unfold pauseIf at h
  by_cases hc : c q = true
  · rw [if_pos hc, hit_eq_hitBy, hitBy_not_loud] at h
    cases h
  · rw [if_neg hc] at h
    exact ⟨h, by simpa using hc⟩

theorem loud_playing {q : Player} (h : q.loud = true) : q.playing = true := by
  unfold Player.loud at h
  simp only [Bool.and_eq_true] at h
  exact h.1

theorem loud_of_native {q : Player} (hv : q.isVideo = true) (hp : q.playing = true) :
    q.loud = true := by
  unfold Player.loud
  rw [hp, isYt_eq_not_isVideo, hv]
  rfl

theorem tame_comp {f g : Player → Player} (hf : Tame f) (hg : Tame g) : Tame (f ∘ g) := by
  intro p
  obtain ⟨g1, g2, g3⟩ := hg p
  obtain ⟨f1, f2, f3⟩ := hf (g p)
  refine ⟨by simp [f1, g1], by simp [f2, g2], ?_⟩
  intro h
  exact f3 (g3 h)

theorem tame_isVideo {f : Player → Player} (hf : Tame f) (p : Player) :
    (f p).isVideo = p.isVideo := by
  unfold Player.isVideo
  rw [(hf p).2.1]

/-! ## The invariant is kept by every listener -/

theorem inv_mapPlayers {f : Player → Player} (hf : Tame f) {s : VState} (hI : Inv s) :
    Inv (mapPlayers f s) := by
  have hnode : (players (mapPlayers f s)).map Player.node = (players s).map Player.node := by
    rw [players_mapPlayers, List.map_map]
    apply List.map_congr_left
    intro p _
    exact (hf p).1
  refine ⟨?_, ?_, hI.wiredC, ?_, ?_⟩
  · rw [hnode]; exact hI.nodup
  · intro p hp
    rw [players_mapPlayers, List.mem_map] at hp
    obtain ⟨q, hq, rfl⟩ := hp
    rw [(hf q).1]
    exact hI.fresh q hq
  · intro h
    apply hI.wiredG
    intro h0
    apply h
    simp [mapPlayers, h0]
  · intro p hp
    rw [players_mapPlayers, List.mem_map] at hp
    obtain ⟨q, hq, rfl⟩ := hp
    exact (hf q).2.2 (hI.iframe q hq)

theorem playListener_cases (t : Nat) (s : VState) :
    playListener t s = s ∨
      (playListener t s = mapPlayers (playEffect t) s ∧
        ∃ p, findPlayer s t = some p ∧ p.isVideo = true) := by
  unfold playListener
  cases h : findPlayer s t with
  | none => left; rfl
  | some p =>
    by_cases hv : p.isVideo = true
    · right; simp [hv]
    · left; simp [hv]

theorem inv_playListener (t : Nat) {s : VState} (hI : Inv s) : Inv (playListener t s) := by
  rcases playListener_cases t s with h | ⟨h, _⟩
  · rw [h]; exact hI
  · rw [h, playEffect_eq]; exact inv_mapPlayers (pauseIf_tame _) hI

theorem inv_iterate {f : VState → VState} (hf : ∀ s, Inv s → Inv (f s)) (k : Nat)
    {s : VState} (hI : Inv s) : Inv (f^[k] s) := by
  induction k with
  | zero => exact hI
  | succ k ih => rw [Function.iterate_succ_apply']; exact hf _ ih

theorem inv_timers {s : VState} (hI : Inv s) (ts : List Nat) : Inv { s with timers := ts } :=
  ⟨hI.nodup, hI.fresh, hI.wiredC, hI.wiredG, hI.iframe⟩

theorem inv_clickListener (t : Nat) {s : VState} (hI : Inv s) : Inv (clickListener t s) := by
  unfold clickListener
  split
  · exact hI
  · split
    · exact hI
    · exact inv_timers hI _

theorem inv_timerCallback (t : Nat) {s : VState} (hI : Inv s) : Inv (timerCallback t s) := by
  unfold timerCallback
  rw [timerEffect_eq]
  exact inv_mapPlayers (pauseIf_tame _) hI

theorem inv_fireTimer {s : VState} (hI : Inv s) : Inv (fireTimer s) := by
  unfold fireTimer
  split
  · exact hI
  · exact inv_timerCallback _ (inv_timers hI _)

theorem inv_onMessage (parse : String → Option JVal) (origin data : String) {s : VState}
    (hI : Inv s) : Inv (onMessage parse origin data s) := by
  unfold onMessage
  split
  · exact hI
  · split
    · exact hI
    · split
      · unfold pauseAllNative
        rw [pauseNativeEffect_eq]
        exact inv_mapPlayers (pauseIf_tame _) hI
      · exact hI

theorem startPlayback_tame (t : Nat) :
    Tame (fun p => if p.node == t && p.isVideo then { p with playing := true } else p) := by
  intro p
  by_cases h : (p.node == t && p.isVideo) = true
  · beta_reduce
    rw [if_pos h]
    refine ⟨rfl, rfl, ?_⟩
    intro _ hy
    simp only [Bool.and_eq_true] at h
    have hv := h.2
    unfold Player.isYt at hy
    unfold Player.isVideo at hv
    simp only at hy
    cases hm : p.media <;> simp [hm] at hy hv
  · simp [h]

theorem activate_tame (t : Nat) :
    Tame (fun p =>
      if p.node == t && p.isYt then
        { p with hasIframe := true, playing := true, pauseSent := false }
      else p) := by
  intro p
  by_cases h : (p.node == t && p.isYt) = true
  · simp [h]
  · simp [h]

theorem resume_tame (t : Nat) :
    Tame (fun p =>
      if p.node == t && p.isYt && p.hasIframe then
        { p with playing := true, pauseSent := false }
      else p) := by
  intro p
  by_cases h : (p.node == t && p.isYt && p.hasIframe) = true
  · beta_reduce
    rw [if_pos h]
    refine ⟨rfl, rfl, ?_⟩
    intro _ _ _
    simp only [Bool.and_eq_true] at h
    exact h.2
  · simp [h]

theorem stop_tame (t : Nat) :
    Tame (fun p => if p.node == t then { p with playing := false } else p) := by
  intro p
  by_cases h : (p.node == t) = true
  · simp [h]
  · simp [h]

/-! ## Cards built by `createVideoCard` -/

theorem buildCards_length (l : List VideoDesc) (start : Nat) :
    (buildCards l start).length = l.length := by
  simp [buildCards]

theorem buildCards_nodes (l : List VideoDesc) (start : Nat) :
    (buildCards l start).map (fun c => c.player.node) =
      (List.range l.length).map (fun i => start + i) := by
  unfold buildCards
  rw [List.map_map, ← List.enum_map_fst l, List.map_map]
  rfl

theorem buildCards_dataIdx (l : List VideoDesc) (start : Nat) :
    (buildCards l start).map Card.dataIdx = List.range l.length := by
  unfold buildCards
  rw [List.map_map, ← List.enum_map_fst l]
  rfl

theorem buildCards_shape (l : List VideoDesc) (start : Nat) :
    (buildCards l start).map Card.shape = (buildCards l 0).map Card.shape := by
  unfold buildCards
  rw [List.map_map, List.map_map]
  rfl

theorem buildCards_getElem? (l : List VideoDesc) (start i : Nat) :
    (buildCards l start)[i]? = l[i]?.map (fun v => createVideoCard v i (start + i)) := by
  unfold buildCards
  rw [List.getElem?_map, List.getElem?_enum]
  cases l[i]? <;> rfl

theorem givenText_orEmpty (o : Option Text) :
    orEmpty (text o) = (match givenText o with
      | some d => d
      | none => "") := by
  cases o with
  | none => rfl
  | some t =>
    by_cases h : t.val = ""
    · simp [givenText, text, orEmpty, h]
    · simp [givenText, text, orEmpty, h]

theorem givenText_truthy (o : Option Text) : truthy (text o) = (givenText o).isSome := by
  cases o with
  | none => rfl
  | some t =>
    by_cases h : t.val = ""
    · simp [givenText, text, truthy, h]
    · simp [givenText, text, truthy, h]

theorem givenText_guard (o : Option Text) :
    (if truthy (text o) = true then text o else none) = givenText o := by
  cases o with
  | none => rfl
  | some t =>
    by_cases h : t.val = ""
    · simp [givenText, text, truthy, h]
    · simp [givenText, text, truthy, h]

theorem shows_createVideoCard (v : VideoDesc) (idx node : Nat) :
    Shows v idx (createVideoCard v idx node) := by
  refine ⟨rfl, rfl, ?_, ?_⟩
  · show orEmpty (text v.duration) ++ " " ++
      (if truthy (text v.caption) = true then "· " ++ orEmpty (text v.caption) else "") = _
    rw [givenText_orEmpty v.duration, givenText_truthy, givenText_orEmpty v.caption]
    cases givenText v.caption <;> simp
  · show (if truthy (text v.youtubeId) = true then
        Media.liteYoutube (orEmpty (text v.youtubeId)) ("Play: " ++ v.title.val)
      else Media.video (if truthy (text v.poster) = true then text v.poster else none)
        (if truthy (text v.src) = true then text v.src else none)) = _
    rw [givenText_guard, givenText_guard, givenText_truthy, givenText_orEmpty v.youtubeId]
    cases givenText v.youtubeId <;> simp

theorem shows_of_shape {v : VideoDesc} {idx : Nat} {c d : Card} (h : d.shape = c.shape)
    (hs : Shows v idx c) : Shows v idx d := by
  unfold Card.shape at h
  simp only [Prod.mk.injEq] at h
  obtain ⟨h1, h2, h3, h4⟩ := h
  unfold Shows
  rw [h1, h2, h3, h4]
  exact hs

theorem buildCards_showsAll (l : List VideoDesc) (start : Nat) :
    ShowsAll l (buildCards l start) := by
  refine ⟨buildCards_length l start, ?_⟩
  intro i v c hv hc
  rw [buildCards_getElem?, hv] at hc
  cases hc
  exact shows_createVideoCard v i _

theorem showsAll_of_shape {l : List VideoDesc} {cards : List Card}
    (h : cards.map Card.shape = (buildCards l 0).map Card.shape) : ShowsAll l cards := by
  constructor
  · have := congrArg List.length h
    simpa [buildCards] using this
  · intro i v c hv hc
    have h1 := congrArg (fun x => x[i]?) h
    simp only [List.getElem?_map, hc, buildCards_getElem?, hv, Option.map_some'] at h1
    exact shows_of_shape (Option.some.inj h1) (shows_createVideoCard v i _)

theorem buildCards_fresh (l : List VideoDesc) (start : Nat) (c : Card)
    (hc : c ∈ buildCards l start) :
    c.player.playing = false ∧ c.player.hasIframe = false ∧ c.player.pauseCalls = 0 ∧
      start ≤ c.player.node ∧ c.player.node < start + l.length := by
  unfold buildCards at hc
  rw [List.mem_map] at hc
  obtain ⟨iv, hiv, rfl⟩ := hc
  have := List.fst_lt_of_mem_enum hiv
  refine ⟨rfl, rfl, rfl, ?_, ?_⟩
  · show start ≤ start + iv.1
    omega
  · show start + iv.1 < start + l.length
    omega

theorem buildCards_nodup (l : List VideoDesc) (start : Nat) :
    ((buildCards l start).map (fun c => c.player.node)).Nodup := by
  rw [buildCards_nodes]
  apply List.Nodup.map _ (List.nodup_range _)
  intro a b h
  simpa using h

/-- Appending freshly built cards to a container keeps identities distinct. -/
theorem nodup_append_built (old : List Card) (l : List VideoDesc) (start : Nat)
    (hn : (old.map (fun c => c.player.node)).Nodup)
    (hf : ∀ c ∈ old, c.player.node < start) :
    ((old ++ buildCards l start).map (fun c => c.player.node)).Nodup := by
  rw [List.map_append, List.nodup_append]
  refine ⟨hn, buildCards_nodup l start, ?_⟩
  intro n h1 h2
  rw [List.mem_map] at h1 h2
  obtain ⟨c, hc, rfl⟩ := h1
  obtain ⟨d, hd, hdn⟩ := h2
  have h3 := hf c hc
  have h4 := (buildCards_fresh l start d hd).2.2.2.1
  omega

theorem inv_onToggle {s : VState} (hI : Inv s) : Inv (onToggle s) := by
  obtain ⟨hn, hf, hc, hg, hi⟩ := hI
  have hn1 : (s.carousel.map (fun c => c.player.node)).Nodup := by
    have : (players s).map Player.node =
        s.carousel.map (fun c => c.player.node) ++ s.grid.map (fun c => c.player.node) := by
      simp [players, List.map_map, Function.comp_def]
    rw [this, List.nodup_append] at hn
    exact hn.1
  have hf1 : ∀ c ∈ s.carousel, c.player.node < s.nextNode := by
    intro c hc1
    apply hf
    simp only [players, List.map_append, List.mem_append, List.mem_map]
    exact Or.inl ⟨c, hc1, rfl⟩
  unfold onToggle attachVideoEvents
  cases he : s.isExpanded
  · -- expand
    simp only [Bool.not_false, if_true]
    refine ⟨?_, ?_, hc, fun _ => Nat.le_add_left _ _, ?_⟩
    · have := nodup_append_built s.carousel s.vids s.nextNode hn1 hf1
      simpa [players, List.map_map, Function.comp_def] using this
    · intro p hp
      simp only [players, List.map_append, List.mem_append, List.mem_map] at hp
      rcases hp with ⟨c, hc1, rfl⟩ | ⟨c, hc1, rfl⟩
      · have := hf1 c hc1
        show c.player.node < s.nextNode + s.vids.length
        omega
      · exact (buildCards_fresh _ _ c hc1).2.2.2.2
    · intro p hp hy hpl
      simp only [players, List.map_append, List.mem_append, List.mem_map] at hp
      rcases hp with ⟨c, hc1, rfl⟩ | ⟨c, hc1, rfl⟩
      · apply hi _ _ hy hpl
        simp only [players, List.map_append, List.mem_append, List.mem_map]
        exact Or.inl ⟨c, hc1, rfl⟩
      · rw [(buildCards_fresh _ _ c hc1).1] at hpl
        cases hpl
  · -- collapse
    simp only [Bool.not_true, if_false]
    exact ⟨hn, hf, Nat.le_add_left _ _, hg, hi⟩

theorem loadVideos_eq (page : VState) (vids : List VideoDesc) :
    loadVideos page vids =
      { page with
        vids := vids
        isExpanded := false
        carousel := page.carousel ++ buildCards (vids.take 3) page.nextNode
        nextNode := page.nextNode + (vids.take 3).length
        carouselListeners := page.carouselListeners + 1 } := rfl

theorem onToggle_expand {s : VState} (h : s.isExpanded = false) :
    onToggle s =
      { s with
        isExpanded := true
        grid := buildCards s.vids s.nextNode
        nextNode := s.nextNode + s.vids.length
        gridHidden := false
        carouselDisplay := "none"
        label := "Show less"
        gridListeners := s.gridListeners + 1 } := by
  unfold onToggle attachVideoEvents
  simp [h]

theorem onToggle_collapse {s : VState} (h : s.isExpanded = true) :
    onToggle s =
      { s with
        isExpanded := false
        carouselDisplay := ""
        gridHidden := true
        label := "View all videos"
        carouselListeners := s.carouselListeners + 1 } := by
  unfold onToggle attachVideoEvents
  simp [h]

theorem inv_loadVideos {page : VState} (hb : Blank page) (vids : List VideoDesc) :
    Inv (loadVideos page vids) := by
  obtain ⟨h1, h2, _⟩ := hb
  rw [loadVideos_eq]
  refine ⟨?_, ?_, Nat.le_add_left _ _, fun h => absurd h2 h, ?_⟩
  · have := buildCards_nodup (vids.take 3) page.nextNode
    simpa [players, h1, h2, List.map_map, Function.comp_def] using this
  · intro p hp
    simp only [players, h1, h2, List.append_nil, List.nil_append, List.mem_map] at hp
    obtain ⟨c, hc1, rfl⟩ := hp
    exact (buildCards_fresh _ _ c hc1).2.2.2.2
  · intro p hp hy hpl
    simp only [players, h1, h2, List.append_nil, List.nil_append, List.mem_map] at hp
    obtain ⟨c, hc1, rfl⟩ := hp
    rw [(buildCards_fresh _ _ c hc1).1] at hpl
    cases hpl

theorem inv_step (parse : String → Option JVal) {s : VState} (hI : Inv s) (e : Event) :
    Inv (step parse s e) := by
  cases e with
  | toggle => exact inv_onToggle hI
  | play t =>
    exact inv_iterate (fun _ h => inv_playListener t h) _
      (inv_mapPlayers (startPlayback_tame t) hI)
  | clickYt t =>
    exact inv_iterate (fun _ h => inv_clickListener t h) _
      (inv_mapPlayers (activate_tame t) hI)
  | timer => exact inv_fireTimer hI
  | message o d => exact inv_onMessage parse o d hI
  | resume t => exact inv_mapPlayers (resume_tame t) hI
  | stop t => exact inv_mapPlayers (stop_tame t) hI

theorem inv_run (parse : String → Option JVal) (evs : List Event) {s : VState} (hI : Inv s) :
    Inv (run parse s evs) := by
  induction evs generalizing s with
  | nil => exact hI
  | cons e evs ih => exact ih (inv_step parse hI e)

theorem run_append (parse : String → Option JVal) (s : VState) (xs ys : List Event) :
    run parse s (xs ++ ys) = run parse (run parse s xs) ys := by
  simp [run, List.foldl_append]

theorem run_snoc (parse : String → Option JVal) (s : VState) (xs : List Event) (e : Event) :
    run parse s (xs ++ [e]) = step parse (run parse s xs) e := by
  simp [run, List.foldl_append]

/-! ## What the listeners other than the toggle leave alone -/

theorem sameLayout_refl (s : VState) : SameLayout s s := ⟨rfl, rfl, rfl⟩

theorem sameLayout_trans {a b c : VState} (h1 : SameLayout a b) (h2 : SameLayout b c) :
    SameLayout a c :=
  ⟨h2.1.trans h1.1, h2.2.1.trans h1.2.1, h2.2.2.trans h1.2.2⟩

theorem sameLayout_mapPlayers {f : Player → Player} (hf : Tame f) (s : VState) :
    SameLayout s (mapPlayers f s) := by
  refine ⟨rfl, ?_, ?_⟩ <;>
  · simp only [mapPlayers, List.map_map]
    apply List.map_congr_left
    intro c _
    simp [Card.shape, (hf c.player).2.1]

theorem sameLayout_timers (s : VState) (ts : List Nat) :
    SameLayout s { s with timers := ts } := ⟨rfl, rfl, rfl⟩

theorem sameLayout_iterate {f : VState → VState} (hf : ∀ s, SameLayout s (f s)) (k : Nat)
    (s : VState) : SameLayout s (f^[k] s) := by
  induction k with
  | zero => exact sameLayout_refl s
  | succ k ih => rw [Function.iterate_succ_apply']; exact sameLayout_trans ih (hf _)

theorem sameLayout_playListener (t : Nat) (s : VState) : SameLayout s (playListener t s) := by
  rcases playListener_cases t s with h | ⟨h, _⟩
  · rw [h]; exact sameLayout_refl s
  · rw [h, playEffect_eq]; exact sameLayout_mapPlayers (pauseIf_tame _) s

theorem sameLayout_clickListener (t : Nat) (s : VState) :
    SameLayout s (clickListener t s) := by
  unfold clickListener
  split
  · exact sameLayout_refl s
  · split
    · exact sameLayout_refl s
    · exact sameLayout_timers s _

theorem sameLayout_timerCallback (t : Nat) (s : VState) :
    SameLayout s (timerCallback t s) := by
  unfold timerCallback
  rw [timerEffect_eq]
  exact sameLayout_mapPlayers (pauseIf_tame _) s

theorem sameLayout_fireTimer (s : VState) : SameLayout s (fireTimer s) := by
  unfold fireTimer
  split
  · exact sameLayout_refl s
  · exact sameLayout_trans (sameLayout_timers s _) (sameLayout_timerCallback _ _)

theorem sameLayout_onMessage (parse : String → Option JVal) (origin data : String)
    (s : VState) : SameLayout s (onMessage parse origin data s) := by
  unfold onMessage
  split
  · exact sameLayout_refl s
  · split
    · exact sameLayout_refl s
    · split
      · unfold pauseAllNative
        rw [pauseNativeEffect_eq]
        exact sameLayout_mapPlayers (pauseIf_tame _) s
      · exact sameLayout_refl s

theorem sameLayout_step (parse : String → Option JVal) (s : VState) (e : Event)
    (he : e ≠ Event.toggle) : SameLayout s (step parse s e) := by
  cases e with
  | toggle => exact absurd rfl he
  | play t =>
    exact sameLayout_trans (sameLayout_mapPlayers (startPlayback_tame t) s)
      (sameLayout_iterate (sameLayout_playListener t) _ _)
  | clickYt t =>
    exact sameLayout_trans (sameLayout_mapPlayers (activate_tame t) s)
      (sameLayout_iterate (sameLayout_clickListener t) _ _)
  | timer => exact sameLayout_fireTimer s
  | message o d => exact sameLayout_onMessage parse o d s
  | resume t => exact sameLayout_mapPlayers (resume_tame t) s
  | stop t => exact sameLayout_mapPlayers (stop_tame t) s

theorem synced_of_sameLayout {s s' : VState} (h : SameLayout s s') (hs : Synced s) :
    Synced s' := by
  have hc := h.1
  simp only [chrome, Prod.mk.injEq] at hc
  obtain ⟨_, h2, h3, h4, h5, _⟩ := hc
  unfold Synced
  rw [h2, h3, h4, h5]
  exact hs

theorem synced_onToggle (s : VState) : Synced (onToggle s) := by
  cases h : s.isExpanded
  · rw [onToggle_expand h]; simp [Synced]
  · rw [onToggle_collapse h]; simp [Synced]

theorem synced_step (parse : String → Option JVal) {s : VState} (hs : Synced s) (e : Event) :
    Synced (step parse s e) := by
  by_cases he : e = Event.toggle
  · subst he; exact synced_onToggle s
  · exact synced_of_sameLayout (sameLayout_step parse s e he) hs

theorem synced_run (parse : String → Option JVal) (evs : List Event) {s : VState}
    (hs : Synced s) : Synced (run parse s evs) := by
  induction evs generalizing s with
  | nil => exact hs
  | cons e evs ih => exact ih (synced_step parse hs e)

theorem synced_after_toggle (parse : String → Option JVal) (s : VState) (evs : List Event)
    (h : Event.toggle ∈ evs) : Synced (run parse s evs) := by
  obtain ⟨xs, ys, rfl⟩ := List.append_of_mem h
  rw [run_append]
  exact synced_run parse ys (synced_onToggle _)

theorem isExpanded_step (parse : String → Option JVal) (s : VState) (e : Event) :
    (step parse s e).isExpanded = if e = Event.toggle then !s.isExpanded else s.isExpanded := by
  by_cases he : e = Event.toggle
  · subst he
    rw [if_pos rfl]
    cases h : s.isExpanded
    · show (onToggle s).isExpanded = _
      rw [onToggle_expand h]; rfl
    · show (onToggle s).isExpanded = _
      rw [onToggle_collapse h]; rfl
  · rw [if_neg he]
    have := (sameLayout_step parse s e he).1
    simp only [chrome, Prod.mk.injEq] at this
    exact this.2.1

theorem isExpanded_run (parse : String → Option JVal) (evs : List Event) (s : VState) :
    (run parse s evs).isExpanded =
      if evs.count Event.toggle % 2 = 1 then !s.isExpanded else s.isExpanded := by
  induction evs generalizing s with
  | nil => simp [run]
  | cons e evs ih =>
    show (run parse (step parse s e) evs).isExpanded = _
    rw [ih, isExpanded_step]
    by_cases he : e = Event.toggle
    · subst he
      simp only [if_true, List.count_cons_self]
      rcases Nat.mod_two_eq_zero_or_one (List.count Event.toggle evs) with h | h
      · have h2 : (List.count Event.toggle evs + 1) % 2 = 1 := by omega
        simp [h, h2]
      · have h2 : ¬ (List.count Event.toggle evs + 1) % 2 = 1 := by omega
        simp [h, h2]
    · have hc : List.count Event.toggle (e :: evs) = List.count Event.toggle evs := by
        rw [List.count_cons]
        simp [he]
      simp [he, hc]

/-! ## The surfaces hold the fixture -/

theorem shape_length {l : List VideoDesc} {cards : List Card}
    (h : cards.map Card.shape = (buildCards l 0).map Card.shape) :
    cards.length = l.length := by
  have := congrArg List.length h
  simpa [buildCards] using this

theorem shape_dataIdx {l : List VideoDesc} {cards : List Card}
    (h : cards.map Card.shape = (buildCards l 0).map Card.shape) :
    cards.map Card.dataIdx = List.range l.length := by
  have h1 : ∀ cs : List Card, cs.map Card.dataIdx = (cs.map Card.shape).map Prod.fst := by
    intro cs
    rw [List.map_map]; rfl
  rw [h1, h, ← h1, buildCards_dataIdx]

theorem fixture_kept (parse : String → Option JVal) (vids : List VideoDesc) (evs : List Event)
    (s : VState) (h1 : s.vids = vids) (h2 : s.carousel.map Card.shape = (buildCards (vids.take 3) 0).map Card.shape)
    (h3 : s.isExpanded = true → s.grid.map Card.shape = (buildCards vids 0).map Card.shape) :
    (run parse s evs).vids = vids ∧
      (run parse s evs).carousel.map Card.shape =
        (buildCards (vids.take 3) 0).map Card.shape ∧
      ((run parse s evs).isExpanded = true →
        (run parse s evs).grid.map Card.shape = (buildCards vids 0).map Card.shape) := by
  induction evs generalizing s with
  | nil => exact ⟨h1, h2, h3⟩
  | cons e evs ih =>
    show (run parse (step parse s e) evs).vids = vids ∧ _
    by_cases he : e = Event.toggle
    · subst he
      cases hx : s.isExpanded
      · apply ih
        · show (onToggle s).vids = vids
          rw [onToggle_expand hx]; exact h1
        · show (onToggle s).carousel.map Card.shape = _
          rw [onToggle_expand hx]; exact h2
        · intro _
          show (onToggle s).grid.map Card.shape = _
          rw [onToggle_expand hx, ← h1]
          exact buildCards_shape _ _
      · apply ih
        · show (onToggle s).vids = vids
          rw [onToggle_collapse hx]; exact h1
        · show (onToggle s).carousel.map Card.shape = _
          rw [onToggle_collapse hx]; exact h2
        · intro h
          have : (onToggle s).isExpanded = false := by rw [onToggle_collapse hx]
          rw [show step parse s Event.toggle = onToggle s from rfl, this] at h
          cases h
    · obtain ⟨hc, hcar, hgrid⟩ := sameLayout_step parse s e he
      simp only [chrome, Prod.mk.injEq] at hc
      apply ih
      · rw [hc.1]; exact h1
      · rw [hcar]; exact h2
      · intro h
        rw [hc.2.1] at h
        rw [hgrid]; exact h3 h

/-- C8. For every fixture `vids` of length `n`, in every state reached after loading into an
empty carousel: the carousel holds exactly `min 3 n` cards, built from `vids[0..2]` in
fixture order (the card at position `i` shows the title, the meta line and the media
element of `vids[i]`) with `data-idx` equal to the index; and whenever the expanded
surface is active the grid holds exactly `n` cards, one per descriptor in fixture order
with `data-idx` equal to the index, however often the surfaces were switched before. -/
theorem surfaces_hold_fixture (parse : String → Option JVal) (page : VState)
    (vids : List VideoDesc) (evs : List Event) (hc : page.carousel = []) :
    (run parse (loadVideos page vids) evs).carousel.length = min 3 vids.length ∧
      ShowsAll (vids.take 3) (run parse (loadVideos page vids) evs).carousel ∧
      (run parse (loadVideos page vids) evs).carousel.map Card.dataIdx =
        List.range (min 3 vids.length) ∧
      ((run parse (loadVideos page vids) evs).isExpanded = true →
        (run parse (loadVideos page vids) evs).grid.length = vids.length ∧
        ShowsAll vids (run parse (loadVideos page vids) evs).grid ∧
        (run parse (loadVideos page vids) evs).grid.map Card.dataIdx =
          List.range vids.length) := by
  have h0 : (loadVideos page vids).carousel.map Card.shape =
      (buildCards (vids.take 3) 0).map Card.shape := by
    rw [loadVideos_eq]
    simp only [hc, List.nil_append]
    exact buildCards_shape _ _
  obtain ⟨_, h2, h3⟩ := fixture_kept parse vids evs (loadVideos page vids) rfl h0
    (fun h => by rw [loadVideos_eq] at h; cases h)
  have hl : (vids.take 3).length = min 3 vids.length := List.length_take _ _
  refine ⟨?_, showsAll_of_shape h2, ?_,
    fun h => ⟨shape_length (h3 h), showsAll_of_shape (h3 h), shape_dataIdx (h3 h)⟩⟩
  · rw [shape_length h2, hl]
  · rw [shape_dataIdx h2, hl]

/-- Witness of C8: four descriptors, the surfaces switched three times, with a video
played in between. The cards of both surfaces are spelled out. -/
theorem surfaces_hold_fixture_witness :
    page0.carousel = [] ∧
      ShowsAll (fixture4.take 3)
        (run parseOnly (loadVideos page0 fixture4)
          [Event.toggle, Event.play 3, Event.toggle, Event.toggle]).carousel ∧
      ShowsAll fixture4
        (run parseOnly (loadVideos page0 fixture4)
          [Event.toggle, Event.play 3, Event.toggle, Event.toggle]).grid ∧
      (run parseOnly (loadVideos page0 fixture4)
          [Event.toggle, Event.play 3, Event.toggle, Event.toggle]).carousel.map Card.shape =
        [(0, "a", " ", Media.video none (some "a.mp4")),
          (1, "b", "1:00 ", Media.liteYoutube "b" "Play: b"),
          (2, "c", "1:00 ", Media.liteYoutube "c" "Play: c")] ∧
      (run parseOnly (loadVideos page0 fixture4)
          [Event.toggle, Event.play 3, Event.toggle, Event.toggle]).grid.map Card.shape =
        [(0, "a", " ", Media.video none (some "a.mp4")),
          (1, "b", "1:00 ", Media.liteYoutube "b" "Play: b"),
          (2, "c", "1:00 ", Media.liteYoutube "c" "Play: c"),
          (3, "d", " ", Media.video none (some "d.mp4"))] :=
  ⟨rfl,
    (surfaces_hold_fixture parseOnly page0 fixture4
      [Event.toggle, Event.play 3, Event.toggle, Event.toggle] rfl).2.1,
    ((surfaces_hold_fixture parseOnly page0 fixture4
      [Event.toggle, Event.play 3, Event.toggle, Event.toggle] rfl).2.2.2 (by decide)).2.1,
    by decide, by decide⟩

/-- A card built from a descriptor with a caption and a poster, and one from a descriptor
whose video identifier is the empty text: the meta line joins duration and caption, and
the empty identifier gives a native video. -/
theorem createVideoCard_samples :
    (createVideoCard
        { title := plainText "Smile", duration := some (plainText "2:10"),
          caption := some (plainText "Before and after"), youtubeId := none,
          poster := some (plainText "p.jpg"), src := some (plainText "s.mp4") } 4 9).shape =
        (4, "Smile", "2:10 · Before and after",
          Media.video (some "p.jpg") (some "s.mp4")) ∧
      (createVideoCard
        { title := plainText "Tour", duration := none, caption := none,
          youtubeId := some (plainText ""), poster := none, src := none } 0 0).shape =
        (0, "Tour", " ", Media.video none none) := by
  decide

/-- C9. After every sequence of events that contains a click on the toggle, exactly one
surface is visible: when `isExpanded` is true the grid is shown (no class `hidden`) and the
carousel is hidden (`display: none`); when it is false the carousel is shown and the grid
is hidden. The two are never both shown and never both hidden. -/
theorem one_surface_visible (parse : String → Option JVal) (s : VState) (evs : List Event)
    (h : Event.toggle ∈ evs) :
    ((run parse s evs).isExpanded = true →
        (run parse s evs).gridHidden = false ∧ (run parse s evs).carouselDisplay = "none") ∧
      ((run parse s evs).isExpanded = false →
        (run parse s evs).carouselDisplay = "" ∧ (run parse s evs).gridHidden = true) ∧
      gridShown (run parse s evs) = (run parse s evs).isExpanded ∧
      carouselShown (run parse s evs) = !(run parse s evs).isExpanded ∧
      gridShown (run parse s evs) ≠ carouselShown (run parse s evs) := by
  obtain ⟨h1, h2⟩ := synced_after_toggle parse s evs h
  cases hx : (run parse s evs).isExpanded
  · obtain ⟨a, b, _⟩ := h2 hx
    simp [gridShown, carouselShown, a, b]
  · obtain ⟨a, b, _⟩ := h1 hx
    simp [gridShown, carouselShown, a, b]

/-- Witness of C9: one click on the toggle of a freshly loaded page. -/
theorem one_surface_visible_witness :
    Event.toggle ∈ [Event.toggle] ∧
      gridShown (run parseOnly (loadVideos page0 fixture4) [Event.toggle]) ≠
        carouselShown (run parseOnly (loadVideos page0 fixture4) [Event.toggle]) :=
  ⟨by decide,
    (one_surface_visible parseOnly (loadVideos page0 fixture4) [Event.toggle]
      (by decide)).2.2.2.2⟩

/-- C10. After any sequence of events with `k ≥ 1` clicks on the toggle, counted from
loading, the label is `Show less` exactly when the expanded surface is active, which is
exactly when `k` is odd, and `View all videos` exactly when the compact surface is active,
which is exactly when `k` is even. -/
theorem label_reflects_surface (parse : String → Option JVal) (page : VState)
    (vids : List VideoDesc) (evs : List Event) (hk : 1 ≤ evs.count Event.toggle) :
    ((run parse (loadVideos page vids) evs).label = "Show less" ↔
        (run parse (loadVideos page vids) evs).isExpanded = true) ∧
      ((run parse (loadVideos page vids) evs).isExpanded = true ↔
        evs.count Event.toggle % 2 = 1) ∧
      ((run parse (loadVideos page vids) evs).label = "View all videos" ↔
        (run parse (loadVideos page vids) evs).isExpanded = false) ∧
      ((run parse (loadVideos page vids) evs).isExpanded = false ↔
        evs.count Event.toggle % 2 = 0) := by
  have hmem : Event.toggle ∈ evs := List.count_pos_iff.mp hk
  obtain ⟨h1, h2⟩ := synced_after_toggle parse (loadVideos page vids) evs hmem
  have hx := isExpanded_run parse evs (loadVideos page vids)
  have h0 : (loadVideos page vids).isExpanded = false := rfl
  rw [h0] at hx
  have hne : ("Show less" : String) ≠ "View all videos" := by decide
  rcases Nat.mod_two_eq_zero_or_one (evs.count Event.toggle) with hm | hm
  · have hf : (run parse (loadVideos page vids) evs).isExpanded = false := by
      rw [hx]; simp [hm]
    obtain ⟨_, _, hl⟩ := h2 hf
    rw [hf, hl, hm]
    simp
  · have ht : (run parse (loadVideos page vids) evs).isExpanded = true := by
      rw [hx]; simp [hm]
    obtain ⟨_, _, hl⟩ := h1 ht
    rw [ht, hl, hm]
    simp

/-- Witness of C10: three clicks on the toggle. -/
theorem label_reflects_surface_witness :
    1 ≤ [Event.toggle, Event.toggle, Event.toggle].count Event.toggle ∧
      ((run parseOnly (loadVideos page0 fixture4)
          [Event.toggle, Event.toggle, Event.toggle]).label = "Show less" ↔
        (run parseOnly (loadVideos page0 fixture4)
          [Event.toggle, Event.toggle, Event.toggle]).isExpanded = true) :=
  ⟨by decide,
    (label_reflects_surface parseOnly page0 fixture4
      [Event.toggle, Event.toggle, Event.toggle] (by decide)).1⟩

/-! ## The message listener -/

theorem messageMatches_nowPlaying : messageMatches nowPlayingVal = some true := by
  simp [messageMatches, nowPlayingVal, JVal.prop, JVal.isVideoProgress, JVal.truthy,
    JVal.isOne]

theorem parseOnly_nowPlaying : parseOnly nowPlayingText = some nowPlayingVal := by
  simp [parseOnly]

theorem onMessage_nowPlaying (parse : String → Option JVal) (s : VState)
    (hp : parse nowPlayingText = some nowPlayingVal) :
    onMessage parse "https://www.youtube.com" nowPlayingText s = pauseAllNative s := by
  unfold onMessage
  simp [hp, messageMatches_nowPlaying]

theorem players_pauseAllNative (s : VState) :
    players (pauseAllNative s) = (players s).map (pauseIf Player.isVideo) := by
  unfold pauseAllNative
  rw [pauseNativeEffect_eq, players_mapPlayers]

/-- C5. A message whose origin is not exactly `https://www.youtube.com` leaves the whole
state as it is, whatever its data: no element is paused, no pause counter moves. -/
theorem untrusted_origin_ignored (parse : String → Option JVal) (origin data : String)
    (s : VState) (h : origin ≠ "https://www.youtube.com") :
    onMessage parse origin data s = s ∧ step parse s (Event.message origin data) = s ∧
      players (step parse s (Event.message origin data)) = players s := by
  have h1 : onMessage parse origin data s = s := by
    unfold onMessage
    simp [h]
  exact ⟨h1, h1, congrArg players h1⟩

/-- Witness of C5: the now-playing text sent from `https://evil.example` while a native
element plays. -/
theorem untrusted_origin_ignored_witness :
    "https://evil.example" ≠ "https://www.youtube.com" ∧
      onMessage parseOnly "https://evil.example" nowPlayingText
          (run parseOnly (loadVideos page0 fixture4) [Event.play 0]) =
        run parseOnly (loadVideos page0 fixture4) [Event.play 0] :=
  ⟨by decide,
    (untrusted_origin_ignored parseOnly "https://evil.example" nowPlayingText
      (run parseOnly (loadVideos page0 fixture4) [Event.play 0]) (by decide)).1⟩

/-- C6. When `JSON.parse` reads the text `{"info":{"playerState":1}}` as the object it
denotes, a message from the trusted origin with that text leaves every native element of
both containers paused, in whatever configuration they were; the elements themselves stay
the same. -/
theorem trusted_now_playing_pauses_natives (parse : String → Option JVal) (s : VState)
    (hp : parse nowPlayingText = some nowPlayingVal) :
    (∀ q ∈ players (onMessage parse "https://www.youtube.com" nowPlayingText s),
        q.isVideo = true → q.playing = false) ∧
      nativePlaying (onMessage parse "https://www.youtube.com" nowPlayingText s) = 0 ∧
      (players (onMessage parse "https://www.youtube.com" nowPlayingText s)).map Player.node =
        (players s).map Player.node := by
  rw [onMessage_nowPlaying parse s hp, players_pauseAllNative]
  have key : ∀ q ∈ (players s).map (pauseIf Player.isVideo),
      q.isVideo = true → q.playing = false := by
    intro q hq hv
    rw [List.mem_map] at hq
    obtain ⟨p, _, rfl⟩ := hq
    rw [tame_isVideo (pauseIf_tame _)] at hv
    simp [pauseIf, hv, hit_playing_video hv]
  refine ⟨key, ?_, ?_⟩
  · unfold nativePlaying
    rw [players_pauseAllNative, List.length_eq_zero, List.filter_eq_nil_iff]
    intro q hq
    have := key q hq
    cases hv : q.isVideo
    · simp
    · simp [this hv]
  · rw [List.map_map]
    apply List.map_congr_left
    intro p _
    exact (pauseIf_tame _ p).1

/-- Witness of C6: two native elements, one of them playing; afterwards none plays. -/
theorem trusted_now_playing_pauses_natives_witness :
    parseOnly nowPlayingText = some nowPlayingVal ∧
      nativePlaying (run parseOnly (loadVideos page0 [nativeDesc "a", nativeDesc "d"])
        [Event.play 0]) = 1 ∧
      nativePlaying (onMessage parseOnly "https://www.youtube.com" nowPlayingText
        (run parseOnly (loadVideos page0 [nativeDesc "a", nativeDesc "d"])
          [Event.play 0])) = 0 :=
  ⟨parseOnly_nowPlaying, by decide,
    (trusted_now_playing_pauses_natives parseOnly
      (run parseOnly (loadVideos page0 [nativeDesc "a", nativeDesc "d"]) [Event.play 0])
      parseOnly_nowPlaying).2.1⟩

/-! ## Switching the surface and back -/

/-- Counterexample to C7: a native element of the carousel that plays before the surfaces
are switched to the grid and back is the same element afterwards, and it still plays. -/
theorem round_trip_keeps_playing_element :
    (run parseOnly (loadVideos page0 [nativeDesc "a"]) [Event.play 0]).carousel.map
        (fun c => (c.player.node, c.player.playing)) = [(0, true)] ∧
      (run parseOnly (loadVideos page0 [nativeDesc "a"])
          [Event.play 0, Event.toggle, Event.toggle]).carousel.map
        (fun c => (c.player.node, c.player.playing)) = [(0, true)] ∧
      (run parseOnly (loadVideos page0 [nativeDesc "a"])
          [Event.play 0, Event.toggle, Event.toggle]).carousel =
        (run parseOnly (loadVideos page0 [nativeDesc "a"]) [Event.play 0]).carousel ∧
      nativePlaying (run parseOnly (loadVideos page0 [nativeDesc "a"])
          [Event.play 0, Event.toggle, Event.toggle]) = 1 := by
  decide

/-- C7, amended. From any state in which the compact surface is active, switching to the
expanded surface and back leaves the carousel with exactly the cards and elements it had
before, playback state included; the grid holds the cards built at the switch from the full
descriptor list, with new elements, none of which plays. -/
theorem round_trip_rebuilds_grid_only (s : VState) (h : s.isExpanded = false) :
    (onToggle (onToggle s)).isExpanded = false ∧
      (onToggle (onToggle s)).carousel = s.carousel ∧
      (onToggle (onToggle s)).grid = buildCards s.vids s.nextNode ∧
      ShowsAll s.vids (onToggle (onToggle s)).grid ∧
      (∀ c ∈ (onToggle (onToggle s)).grid,
        c.player.playing = false ∧ s.nextNode ≤ c.player.node) := by
  have h1 : (onToggle s).isExpanded = true := by rw [onToggle_expand h]
  have hg : (onToggle (onToggle s)).grid = buildCards s.vids s.nextNode := by
    rw [onToggle_collapse h1, onToggle_expand h]
  refine ⟨?_, ?_, hg, ?_, ?_⟩
  · rw [onToggle_collapse h1]
  · rw [onToggle_collapse h1, onToggle_expand h]
  · rw [hg]; exact buildCards_showsAll _ _
  · intro c hc
    rw [hg] at hc
    have := buildCards_fresh _ _ c hc
    exact ⟨this.1, this.2.2.2.1⟩

/-- Witness of C7, amended: a page with four descriptors whose first video plays. -/
theorem round_trip_rebuilds_grid_only_witness :
    (run parseOnly (loadVideos page0 fixture4) [Event.play 0]).isExpanded = false ∧
      (onToggle (onToggle (run parseOnly (loadVideos page0 fixture4) [Event.play 0]))).carousel =
        (run parseOnly (loadVideos page0 fixture4) [Event.play 0]).carousel :=
  ⟨by decide,
    (round_trip_rebuilds_grid_only (run parseOnly (loadVideos page0 fixture4) [Event.play 0])
      (by decide)).2.1⟩

/-! ## Dispatch of `play` and `click` -/

theorem tame_iterate {f : Player → Player} (hf : Tame f) (k : Nat) : Tame f^[k] := by
  induction k with
  | zero => intro p; exact ⟨rfl, rfl, fun h => h⟩
  | succ k ih => rw [Function.iterate_succ']; exact tame_comp hf ih

theorem mapPlayers_fix {f : Player → Player} {s : VState} (h : ∀ q ∈ players s, f q = q) :
    mapPlayers f s = s := by
  have hc : s.carousel.map (fun c => { c with player := f c.player }) = s.carousel := by
    conv_rhs => rw [← List.map_id s.carousel]
    apply List.map_congr_left
    intro c hc
    have : f c.player = c.player := h _ (by
      simp only [players, List.map_append, List.mem_append, List.mem_map]
      exact Or.inl ⟨c, hc, rfl⟩)
    simp [this]
  have hg : s.grid.map (fun c => { c with player := f c.player }) = s.grid := by
    conv_rhs => rw [← List.map_id s.grid]
    apply List.map_congr_left
    intro c hc
    have : f c.player = c.player := h _ (by
      simp only [players, List.map_append, List.mem_append, List.mem_map]
      exact Or.inr ⟨c, hc, rfl⟩)
    simp [this]
  unfold mapPlayers
  rw [hc, hg]

theorem findPlayer_of_mem {s : VState} (hI : Inv s) {p : Player} (hp : p ∈ players s) :
    findPlayer s p.node = some p :=
  find_of_nodup (players s) hI.nodup p hp

theorem playListener_iterate (t : Nat) (s : VState) (p : Player)
    (hp : findPlayer s t = some p) (hv : p.isVideo = true) (k : Nat) :
    (playListener t)^[k] s = mapPlayers ((pauseIf (playHits t))^[k]) s := by
  induction k with
  | zero => simp [mapPlayers_id, mapPlayers]
  | succ k ih =>
    rw [Function.iterate_succ_apply', ih, Function.iterate_succ']
    have ht := tame_iterate (pauseIf_tame (playHits t)) k
    have hfind : findPlayer (mapPlayers ((pauseIf (playHits t))^[k]) s) t =
        some ((pauseIf (playHits t))^[k] p) := by
      rw [findPlayer_mapPlayers _ (fun q => (ht q).1), hp]
      rfl
    have hvid : ((pauseIf (playHits t))^[k] p).isVideo = true := by
      rw [tame_isVideo ht]; exact hv
    unfold playListener
    rw [hfind]
    simp only [hvid, Bool.not_true, Bool.false_eq_true, if_false]
    rw [mapPlayers_mapPlayers, playEffect_eq]

theorem dispatchPlay_eq (t : Nat) (s : VState) (p : Player)
    (hp : findPlayer s t = some p) (hv : p.isVideo = true) :
    dispatchPlay t s = mapPlayers ((pauseIf (playHits t))^[listenersAt s t]) s :=
  playListener_iterate t s p hp hv _

theorem dispatchPlay_skip (t : Nat) (s : VState)
    (h : ∀ p, findPlayer s t = some p → p.isVideo = false) : dispatchPlay t s = s := by
  apply Function.iterate_fixed
  unfold playListener
  cases hf : findPlayer s t with
  | none => rfl
  | some p => simp [h p hf]

theorem clickListener_iterate (t : Nat) (s : VState) (p : Player)
    (hp : findPlayer s t = some p) (hv : p.isYt = true) (k : Nat) :
    (clickListener t)^[k] s = { s with timers := s.timers ++ List.replicate k t } := by
  induction k with
  | zero => simp
  | succ k ih =>
    rw [Function.iterate_succ_apply', ih]
    have hfind : findPlayer { s with timers := s.timers ++ List.replicate k t } t = some p := hp
    unfold clickListener
    rw [hfind]
    simp only [hv, Bool.not_true, Bool.false_eq_true, if_false]
    simp [List.replicate_succ', List.append_assoc]

theorem dispatchClick_eq (t : Nat) (s : VState) (p : Player)
    (hp : findPlayer s t = some p) (hv : p.isYt = true) :
    dispatchClick t s = { s with timers := s.timers ++ List.replicate (listenersAt s t) t } :=
  clickListener_iterate t s p hp hv _

theorem dispatchClick_skip (t : Nat) (s : VState)
    (h : ∀ p, findPlayer s t = some p → p.isYt = false) : dispatchClick t s = s := by
  apply Function.iterate_fixed
  unfold clickListener
  cases hf : findPlayer s t with
  | none => rfl
  | some p => simp [h p hf]

theorem startPlayback_skip (t : Nat) {s : VState} (hI : Inv s)
    (h : ∀ p, findPlayer s t = some p → p.isVideo = false) : startPlayback t s = s := by
  apply mapPlayers_fix
  intro q hq
  by_cases hc : (q.node == t && q.isVideo) = true
  · simp only [Bool.and_eq_true, beq_iff_eq] at hc
    have := findPlayer_of_mem hI hq
    rw [hc.1] at this
    have := h q this
    rw [hc.2] at this
    cases this
  · simp [hc]

theorem activate_skip (t : Nat) {s : VState} (hI : Inv s)
    (h : ∀ p, findPlayer s t = some p → p.isYt = false) : activate t s = s := by
  apply mapPlayers_fix
  intro q hq
  by_cases hc : (q.node == t && q.isYt) = true
  · simp only [Bool.and_eq_true, beq_iff_eq] at hc
    have := findPlayer_of_mem hI hq
    rw [hc.1] at this
    have := h q this
    rw [hc.2] at this
    cases this
  · simp [hc]

theorem step_play_skip (parse : String → Option JVal) (t : Nat) {s : VState} (hI : Inv s)
    (h : ∀ p, findPlayer s t = some p → p.isVideo = false) :
    step parse s (Event.play t) = s := by
  show dispatchPlay t (startPlayback t s) = s
  rw [startPlayback_skip t hI h, dispatchPlay_skip t s h]

theorem step_click_skip (parse : String → Option JVal) (t : Nat) {s : VState} (hI : Inv s)
    (h : ∀ p, findPlayer s t = some p → p.isYt = false) :
    step parse s (Event.clickYt t) = s := by
  show dispatchClick t (activate t s) = s
  rw [activate_skip t hI h, dispatchClick_skip t s h]

/-- The state after a `play` event on a native element, element by element. -/
theorem step_play_eq (parse : String → Option JVal) (t : Nat) (s : VState) (p : Player)
    (hp : findPlayer s t = some p) (hv : p.isVideo = true) :
    step parse s (Event.play t) =
      mapPlayers ((pauseIf (playHits t))^[listenersAt s t] ∘
        (fun q => if q.node == t && q.isVideo then { q with playing := true } else q)) s := by
  show dispatchPlay t (startPlayback t s) = _
  have hn := fun q => (startPlayback_tame t q).1
  have hfind : findPlayer (startPlayback t s) t = some { p with playing := true } := by
    unfold startPlayback
    rw [findPlayer_mapPlayers _ hn, hp]
    simp [(findPlayer_some hp).2, hv]
  rw [dispatchPlay_eq t _ _ hfind hv]
  unfold startPlayback
  rw [listenersAt_mapPlayers _ hn, mapPlayers_mapPlayers]

/-- The state after a click on an embedded element, before its timeouts fire. -/
theorem step_click_eq (parse : String → Option JVal) (t : Nat) (s : VState) (p : Player)
    (hp : findPlayer s t = some p) (hv : p.isYt = true) :
    step parse s (Event.clickYt t) =
      { activate t s with
        timers := s.timers ++ List.replicate (listenersAt s t) t } := by
  show dispatchClick t (activate t s) = _
  have hn := fun q => (activate_tame t q).1
  have hfind : findPlayer (activate t s) t =
      some { p with hasIframe := true, playing := true, pauseSent := false } := by
    unfold activate
    rw [findPlayer_mapPlayers _ hn, hp]
    simp [(findPlayer_some hp).2, hv]
  rw [dispatchClick_eq t _ _ hfind hv]
  unfold activate
  rw [listenersAt_mapPlayers _ hn]
  rfl

/-! ## Counting the playing elements -/

theorem filter_le_one (P : Player → Bool) (t : Nat) (l : List Player)
    (hn : (l.map Player.node).Nodup) (h : ∀ q ∈ l, P q = true → q.node = t) :
    (l.filter P).length ≤ 1 := by
  induction l with
  | nil => simp
  | cons a l ih =>
    simp only [List.map_cons, List.nodup_cons] at hn
    have ih1 := ih hn.2 (fun q hq => h q (List.mem_cons_of_mem _ hq))
    by_cases ha : P a = true
    · have hnil : l.filter P = [] := by
        rw [List.filter_eq_nil_iff]
        intro q hq hPq
        have h1 := h q (List.mem_cons_of_mem _ hq) hPq
        have h2 := h a (List.mem_cons_self _ _) ha
        exact hn.1 (h2 ▸ h1 ▸ List.mem_map_of_mem Player.node hq)
      simp [List.filter_cons, ha, hnil]
    · simp only [List.filter_cons, ha]
      exact ih1

theorem filter_map_le (P : Player → Bool) (f : Player → Player) (l : List Player)
    (h : ∀ q ∈ l, P (f q) = true → P q = true) :
    ((l.map f).filter P).length ≤ (l.filter P).length := by
  induction l with
  | nil => simp
  | cons a l ih =>
    have ih1 := ih (fun q hq => h q (List.mem_cons_of_mem _ hq))
    by_cases ha : P (f a) = true
    · have := h a (List.mem_cons_self _ _) ha
      simp only [List.map_cons, List.filter_cons, ha, this, if_true, List.length_cons]
      omega
    · by_cases hb : P a = true
      · simp only [List.map_cons, List.filter_cons, ha, hb, if_true, List.length_cons]
        simp only [Bool.false_eq_true, if_false]
        omega
      · simp only [List.map_cons, List.filter_cons, ha, hb]
        exact ih1

theorem native_add_embedded (s : VState) :
    nativePlaying s + embeddedPlaying s = playingCount s := by
  unfold nativePlaying embeddedPlaying playingCount
  induction players s with
  | nil => simp
  | cons a l ih =>
    simp only [isYt_eq_not_isVideo] at ih ⊢
    cases hp : a.playing <;> cases hv : a.isVideo <;>
      simp only [List.filter_cons, hp, hv, Bool.and_true, Bool.and_false, Bool.not_true,
        Bool.not_false, if_true, List.length_cons, Bool.false_eq_true, if_false] <;> omega

theorem count_onToggle_le (P : Player → Bool) (hP : ∀ q, P q = true → q.playing = true)
    (s : VState) :
    ((players (onToggle s)).filter P).length ≤ ((players s).filter P).length := by
  cases h : s.isExpanded
  · rw [onToggle_expand h]
    have hnil : ((buildCards s.vids s.nextNode).map Card.player).filter P = [] := by
      rw [List.filter_eq_nil_iff]
      intro q hq hPq
      rw [List.mem_map] at hq
      obtain ⟨c, hc, rfl⟩ := hq
      have := hP _ hPq
      rw [(buildCards_fresh _ _ c hc).1] at this
      cases this
    simp only [players, List.map_append, List.filter_append, List.length_append, hnil,
      List.length_nil]
    omega
  · rw [onToggle_collapse h]
    exact Nat.le_refl _

theorem count_mapPlayers_le (P : Player → Bool) (f : Player → Player) (s : VState)
    (h : ∀ q ∈ players s, P (f q) = true → P q = true) :
    ((players (mapPlayers f s)).filter P).length ≤ ((players s).filter P).length := by
  rw [players_mapPlayers]
  exact filter_map_le P f _ h

/-- After a `play` event on a native element, whatever plays without having been sent a
pause command is that element. -/
theorem loud_after_play (parse : String → Option JVal) (t : Nat) {s : VState} (hI : Inv s)
    (p : Player) (hp : findPlayer s t = some p) (hv : p.isVideo = true) :
    ∀ q ∈ players (step parse s (Event.play t)), q.loud = true → q.node = t := by
  intro q hq hpl
  rw [step_play_eq parse t s p hp hv, players_mapPlayers, List.mem_map] at hq
  obtain ⟨q0, hq0, rfl⟩ := hq
  have hk : 1 ≤ listenersAt s t := by
    have := listenersAt_pos_of_mem hI (findPlayer_some hp).1
    rwa [(findPlayer_some hp).2] at this
  simp only [Function.comp_apply] at hpl ⊢
  rw [pauseIf_iterate _ (playHits_stable t)] at hpl ⊢
  by_cases hh : playHits t
      (if (q0.node == t && q0.isVideo) = true then { q0 with playing := true } else q0) = true
  · rw [if_pos ⟨hh, hk⟩, hitBy_not_loud] at hpl
    cases hpl
  · have hne : ¬ (playHits t
        (if (q0.node == t && q0.isVideo) = true then { q0 with playing := true } else q0) = true
          ∧ 0 < listenersAt s t) := fun h => hh h.1
    rw [if_neg hne] at hpl ⊢
    by_cases hc : (q0.node == t && q0.isVideo) = true
    · rw [if_pos hc]
      simp only [Bool.and_eq_true, beq_iff_eq] at hc
      exact hc.1
    · rw [if_neg hc] at hpl hh ⊢
      unfold playHits at hh
      cases hm : q0.media with
      | video a b =>
        rw [hm] at hh
        simpa using hh
      | liteYoutube a b =>
        rw [hm] at hh
        have hy : q0.isYt = true := by simp [Player.isYt, hm]
        exact absurd (hI.iframe q0 hq0 hy (loud_playing hpl)) hh

/-- After a timeout callback, whatever plays without having been sent a pause command is
the element that was clicked. -/
theorem loud_after_timer (l : Nat) {s : VState} (hI : Inv s) :
    ∀ q ∈ players (timerCallback l s), q.loud = true → q.node = l := by
  intro q hq hpl
  unfold timerCallback at hq
  rw [timerEffect_eq, players_mapPlayers, List.mem_map] at hq
  obtain ⟨q0, hq0, rfl⟩ := hq
  obtain ⟨h1, h2⟩ := loud_pauseIf hpl
  rw [(pauseIf_tame _ q0).1]
  unfold timerHits at h2
  cases hm : q0.media with
  | video a b => rw [hm] at h2; cases h2
  | liteYoutube a b =>
    rw [hm] at h2
    have hy : q0.isYt = true := by simp [Player.isYt, hm]
    have hif := hI.iframe q0 hq0 hy (loud_playing h1)
    simpa [hif] using h2

theorem filter_length_mono (P Q : Player → Bool) (l : List Player)
    (h : ∀ q ∈ l, P q = true → Q q = true) : (l.filter P).length ≤ (l.filter Q).length := by
  have := filter_map_le P id l (fun q hq hP => hP)
  induction l with
  | nil => simp
  | cons a l ih =>
    have ih1 := ih (fun q hq => h q (List.mem_cons_of_mem _ hq))
      (filter_map_le P id l (fun q _ hP => hP))
    by_cases ha : P a = true
    · have hb := h a (List.mem_cons_self _ _) ha
      simp only [List.filter_cons, ha, hb, if_true, List.length_cons]
      omega
    · by_cases hb : Q a = true
      · simp only [List.filter_cons, ha, hb, if_true, List.length_cons]
        simp only [Bool.false_eq_true, if_false]
        omega
      · simp only [List.filter_cons, ha, hb]
        exact ih1

theorem loudCount_after_play (parse : String → Option JVal) (t : Nat) {s : VState}
    (hI : Inv s) (p : Player) (hp : findPlayer s t = some p) (hv : p.isVideo = true) :
    loudCount (step parse s (Event.play t)) ≤ 1 :=
  filter_le_one _ t _ (inv_step parse hI (Event.play t)).nodup
    (loud_after_play parse t hI p hp hv)

theorem loudCount_after_timer (l : Nat) {s : VState} (hI : Inv s) :
    loudCount (timerCallback l s) ≤ 1 :=
  filter_le_one _ l _ (inv_timerCallback l hI).nodup (loud_after_timer l hI)

theorem nativePlaying_le (s : VState) : nativePlaying s ≤ loudCount s := by
  apply filter_length_mono
  intro q _ h
  simp only [Bool.and_eq_true] at h
  exact loud_of_native h.1 h.2

theorem loudCount_le (s : VState) : loudCount s ≤ playingCount s := by
  apply filter_length_mono
  intro q _ h
  exact loud_playing h

/-! ## How each event moves the counters -/

theorem onMessage_cases (parse : String → Option JVal) (origin data : String) (s : VState) :
    onMessage parse origin data s = s ∨ onMessage parse origin data s = pauseAllNative s := by
  unfold onMessage
  split
  · exact Or.inl rfl
  · split
    · exact Or.inl rfl
    · split
      · exact Or.inr rfl
      · exact Or.inl rfl

theorem fireTimer_cases (s : VState) :
    (s.timers = [] ∧ fireTimer s = s) ∨
      ∃ l rest, s.timers = l :: rest ∧
        fireTimer s = timerCallback l { s with timers := rest } := by
  unfold fireTimer
  cases h : s.timers with
  | nil => exact Or.inl ⟨rfl, rfl⟩
  | cons l rest => exact Or.inr ⟨l, rest, rfl, rfl⟩

theorem players_dispatchClick (t : Nat) (s : VState) :
    players (dispatchClick t s) = players s := by
  unfold dispatchClick
  generalize listenersAt s t = k
  induction k with
  | zero => rfl
  | succ k ih =>
    rw [Function.iterate_succ_apply', ← ih]
    unfold clickListener
    split
    · rfl
    · split <;> rfl

theorem timers_onToggle (s : VState) : (onToggle s).timers = s.timers := by
  cases h : s.isExpanded
  · rw [onToggle_expand h]
  · rw [onToggle_collapse h]

theorem nativePlaying_pauseAllNative (s : VState) : nativePlaying (pauseAllNative s) = 0 := by
  unfold nativePlaying
  rw [players_pauseAllNative, List.length_eq_zero, List.filter_eq_nil_iff]
  intro q hq
  rw [List.mem_map] at hq
  obtain ⟨p, _, rfl⟩ := hq
  cases hv : p.isVideo
  · simp [tame_isVideo (pauseIf_tame _), hv]
  · simp [pauseIf, hv, hit_playing_video hv]

theorem count_pauseIf_le (P : Player → Bool) (hP : ∀ q, P q.hit = true → P q = true)
    (c : Player → Bool) (s : VState) :
    ((players (mapPlayers (pauseIf c) s)).filter P).length ≤
      ((players s).filter P).length := by
  apply count_mapPlayers_le
  intro q _ h
  unfold pauseIf at h
  by_cases hc : c q = true
  · rw [if_pos hc] at h; exact hP q h
  · rw [if_neg hc] at h; exact h

theorem playing_pause_mono (q : Player) (h : q.hit.playing = true) : q.playing = true := by
  rw [hit_eq_hitBy] at h
  have h2 : (q.playing && q.isYt) = true := h
  simp only [Bool.and_eq_true] at h2
  exact h2.1

theorem nativePlaying_activate_le (t : Nat) (s : VState) :
    nativePlaying (activate t s) ≤ nativePlaying s := by
  apply count_mapPlayers_le
  intro q _ h
  by_cases hc : (q.node == t && q.isYt) = true
  · rw [if_pos hc] at h
    simp only [Bool.and_eq_true] at hc
    have hy := hc.2
    rw [isYt_eq_not_isVideo] at hy
    simp [Player.isVideo] at h hy
    rw [hy] at h
    simp at h
  · rw [if_neg hc] at h; exact h

theorem nativePlaying_resume_le (t : Nat) (s : VState) :
    nativePlaying (resume t s) ≤ nativePlaying s := by
  apply count_mapPlayers_le
  intro q _ h
  by_cases hc : (q.node == t && q.isYt && q.hasIframe) = true
  · rw [if_pos hc] at h
    simp only [Bool.and_eq_true] at hc
    have hy := hc.1.2
    rw [isYt_eq_not_isVideo] at hy
    simp [Player.isVideo] at h hy
    rw [hy] at h
    simp at h
  · rw [if_neg hc] at h; exact h

theorem nativePlaying_onMessage_le (parse : String → Option JVal) (origin data : String)
    (s : VState) : nativePlaying (onMessage parse origin data s) ≤ nativePlaying s := by
  rcases onMessage_cases parse origin data s with h | h
  · rw [h]
  · rw [h, nativePlaying_pauseAllNative]; exact Nat.zero_le _

theorem playingCount_onMessage_le (parse : String → Option JVal) (origin data : String)
    (s : VState) : playingCount (onMessage parse origin data s) ≤ playingCount s := by
  rcases onMessage_cases parse origin data s with h | h
  · rw [h]
  · rw [h]
    unfold pauseAllNative
    rw [pauseNativeEffect_eq]
    exact count_pauseIf_le _ playing_pause_mono _ s

theorem timers_onMessage (parse : String → Option JVal) (origin data : String) (s : VState) :
    (onMessage parse origin data s).timers = s.timers := by
  rcases onMessage_cases parse origin data s with h | h
  · rw [h]
  · rw [h]; rfl

/-- Either the target of a `play` event is a native element of the document, or the event
changes nothing. -/
theorem play_found_or_skip (parse : String → Option JVal) (t : Nat) {s : VState}
    (hI : Inv s) :
    (∃ p, findPlayer s t = some p ∧ p.isVideo = true) ∨ step parse s (Event.play t) = s := by
  cases hf : findPlayer s t with
  | none =>
    right
    apply step_play_skip parse t hI
    intro p hp
    rw [hf] at hp
    cases hp
  | some p =>
    cases hv : p.isVideo
    · right
      apply step_play_skip parse t hI
      intro q hq
      rw [hf] at hq
      cases hq
      exact hv
    · exact Or.inl ⟨p, rfl, hv⟩

/-- Either the target of a click is an embedded element of the document, or the event
changes nothing. -/
theorem click_found_or_skip (parse : String → Option JVal) (t : Nat) {s : VState}
    (hI : Inv s) :
    (∃ p, findPlayer s t = some p ∧ p.isYt = true) ∨ step parse s (Event.clickYt t) = s := by
  cases hf : findPlayer s t with
  | none =>
    right
    apply step_click_skip parse t hI
    intro p hp
    rw [hf] at hp
    cases hp
  | some p =>
    cases hv : p.isYt
    · right
      apply step_click_skip parse t hI
      intro q hq
      rw [hf] at hq
      cases hq
      exact hv
    · exact Or.inl ⟨p, rfl, hv⟩

theorem timers_after_click (parse : String → Option JVal) (t : Nat) {s : VState} (hI : Inv s)
    (p : Player) (hp : findPlayer s t = some p) (hv : p.isYt = true) :
    (step parse s (Event.clickYt t)).timers ≠ [] := by
  rw [step_click_eq parse t s p hp hv]
  have hk : 1 ≤ listenersAt s t := by
    have := listenersAt_pos_of_mem hI (findPlayer_some hp).1
    rwa [(findPlayer_some hp).2] at this
  obtain ⟨k, hk2⟩ : ∃ k, listenersAt s t = k + 1 := ⟨listenersAt s t - 1, by omega⟩
  show s.timers ++ List.replicate (listenersAt s t) t ≠ []
  rw [hk2, List.replicate_succ]
  simp

theorem count_stop_le (P : Player → Bool)
    (hP : ∀ q : Player, P { q with playing := false } = true → P q = true) (t : Nat)
    (s : VState) :
    ((players (stopPlayback t s)).filter P).length ≤ ((players s).filter P).length := by
  apply count_mapPlayers_le
  intro q _ h
  by_cases hc : (q.node == t) = true
  · rw [if_pos hc] at h; exact hP q h
  · rw [if_neg hc] at h; exact h

theorem stop_native_mono (q : Player)
    (h : (fun p : Player => p.isVideo && p.playing) { q with playing := false } = true) :
    (fun p : Player => p.isVideo && p.playing) q = true := by
  simp at h

theorem stop_embedded_mono (q : Player)
    (h : (fun p : Player => p.isYt && p.playing) { q with playing := false } = true) :
    (fun p : Player => p.isYt && p.playing) q = true := by
  simp at h

theorem stop_any_mono (q : Player)
    (h : (fun p : Player => p.playing) { q with playing := false } = true) :
    (fun p : Player => p.playing) q = true := by
  simp at h

theorem nativePlaying_step_le_one (parse : String → Option JVal) {s : VState} (hI : Inv s)
    (h : nativePlaying s ≤ 1) (e : Event) : nativePlaying (step parse s e) ≤ 1 := by
  cases e with
  | toggle =>
    exact Nat.le_trans (count_onToggle_le _ (fun q hq => by
      simp only [Bool.and_eq_true] at hq; exact hq.2) s) h
  | play t =>
    rcases play_found_or_skip parse t hI with ⟨p, hp, hv⟩ | hs
    · exact Nat.le_trans (nativePlaying_le _) (loudCount_after_play parse t hI p hp hv)
    · rw [hs]; exact h
  | clickYt t =>
    show nativePlaying (dispatchClick t (activate t s)) ≤ 1
    unfold nativePlaying
    rw [players_dispatchClick]
    exact Nat.le_trans (nativePlaying_activate_le t s) h
  | timer =>
    rcases fireTimer_cases s with ⟨_, hs⟩ | ⟨l, rest, _, hs⟩
    · show nativePlaying (fireTimer s) ≤ 1
      rw [hs]; exact h
    · show nativePlaying (fireTimer s) ≤ 1
      rw [hs]
      exact Nat.le_trans (nativePlaying_le _) (loudCount_after_timer l (inv_timers hI rest))
  | message o d => exact Nat.le_trans (nativePlaying_onMessage_le parse o d s) h
  | resume t => exact Nat.le_trans (nativePlaying_resume_le t s) h
  | stop t => exact Nat.le_trans (count_stop_le _ stop_native_mono t s) h

theorem loud_stop_mono (q : Player)
    (h : Player.loud { q with playing := false } = true) : Player.loud q = true := by
  simp [Player.loud] at h

theorem loudCount_onMessage_le (parse : String → Option JVal) (origin data : String)
    (s : VState) : loudCount (onMessage parse origin data s) ≤ loudCount s := by
  rcases onMessage_cases parse origin data s with h | h
  · rw [h]
  · rw [h]
    unfold pauseAllNative
    rw [pauseNativeEffect_eq]
    apply count_mapPlayers_le
    intro q _ hq
    exact (loud_pauseIf hq).1

/-- Without an embedded player that resumes on its own, at most one element plays without
having been sent a pause command, whenever no timeout is pending. -/
theorem quiet_step (parse : String → Option JVal) {s : VState} (hI : Inv s)
    (h : s.timers = [] → loudCount s ≤ 1) (e : Event)
    (he : ∀ n, e ≠ Event.resume n) :
    (step parse s e).timers = [] → loudCount (step parse s e) ≤ 1 := by
  cases e with
  | toggle =>
    intro h1
    have h2 : (onToggle s).timers = [] := h1
    rw [timers_onToggle] at h2
    exact Nat.le_trans (count_onToggle_le _ (fun q hq => loud_playing hq) s) (h h2)
  | play t =>
    rcases play_found_or_skip parse t hI with ⟨p, hp1, hv⟩ | hs
    · intro _
      exact loudCount_after_play parse t hI p hp1 hv
    · rw [hs]; exact h
  | clickYt t =>
    rcases click_found_or_skip parse t hI with ⟨p, hp1, hv⟩ | hs
    · intro h1
      exact absurd h1 (timers_after_click parse t hI p hp1 hv)
    · rw [hs]; exact h
  | timer =>
    show (fireTimer s).timers = [] → loudCount (fireTimer s) ≤ 1
    rcases fireTimer_cases s with ⟨_, hs⟩ | ⟨l, rest, _, hs⟩
    · rw [hs]; exact h
    · rw [hs]
      intro _
      exact loudCount_after_timer l (inv_timers hI rest)
  | message o d =>
    intro h1
    have h2 : (onMessage parse o d s).timers = [] := h1
    rw [timers_onMessage] at h2
    exact Nat.le_trans (loudCount_onMessage_le parse o d s) (h h2)
  | resume t => exact absurd rfl (he t)
  | stop t =>
    intro h1
    exact Nat.le_trans (count_stop_le _ loud_stop_mono t s) (h h1)

theorem playing_invariant_aux (parse : String → Option JVal) (s : VState) (hI : Inv s)
    (ha : nativePlaying s ≤ 1) (hc : s.timers = [] → loudCount s ≤ 1) (evs : List Event) :
    Inv (run parse s evs) ∧ nativePlaying (run parse s evs) ≤ 1 ∧
      ((∀ n, Event.resume n ∉ evs) → (run parse s evs).timers = [] →
        loudCount (run parse s evs) ≤ 1) := by
  induction evs using List.reverseRecOn with
  | nil => exact ⟨hI, ha, fun _ => hc⟩
  | append_singleton xs e ih =>
    obtain ⟨i1, i2, i4⟩ := ih
    rw [run_snoc]
    refine ⟨inv_step parse i1 e, nativePlaying_step_le_one parse i1 i2 e, ?_⟩
    intro hno
    apply quiet_step parse i1
    · apply i4
      intro n hn
      exact hno n (List.mem_append_left _ hn)
    · intro n hn
      exact hno n (by rw [hn]; simp)

/-- Where every embedded player that was sent a pause command has stopped, the instances
that play are those that play without having been sent one. -/
theorem playingCount_eq_loudCount (s : VState)
    (h : ∀ p ∈ players s, p.isYt = true → p.pauseSent = true → p.playing = false) :
    playingCount s = loudCount s := by
  unfold playingCount loudCount
  congr 1
  apply List.filter_congr
  intro p hp
  unfold Player.loud
  cases hy : p.isYt <;> cases hs : p.pauseSent <;> simp
  exact h p hp hy hs

theorem loaded_nothing_plays {page : VState} (hb : Blank page) (vids : List VideoDesc) :
    playingCount (loadVideos page vids) = 0 := by
  obtain ⟨h1, h2, _⟩ := hb
  unfold playingCount
  rw [List.length_eq_zero, List.filter_eq_nil_iff]
  intro q hq
  rw [loadVideos_eq] at hq
  simp only [players, h1, h2, List.append_nil, List.nil_append, List.mem_map] at hq
  obtain ⟨c, hc, rfl⟩ := hq
  simp [(buildCards_fresh _ _ c hc).1]

/-! ## The claims on playback coordination -/

theorem blank_page0 : Blank page0 := ⟨rfl, rfl, rfl, rfl, rfl⟩

theorem inv_reached (parse : String → Option JVal) {page : VState} (hb : Blank page)
    (vids : List VideoDesc) (evs : List Event) : Inv (run parse (loadVideos page vids) evs) :=
  inv_run parse evs (inv_loadVideos hb vids)

theorem mem_players_of_active {s : VState} {c : Card} (hc : c ∈ activeCards s) :
    c.player ∈ players s := by
  unfold activeCards at hc
  simp only [players, List.map_append, List.mem_append, List.mem_map]
  split at hc
  · exact Or.inr ⟨c, hc, rfl⟩
  · exact Or.inl ⟨c, hc, rfl⟩

/-- C1. In every state reached from a blank page, a `play` event whose target is a native
element of the active surface leaves every other native element of both containers
paused; the target itself is not paused by the listener (it plays and its pause counter
has not moved); hence at most one native element plays once the event has settled. -/
theorem play_pauses_other_natives (parse : String → Option JVal) (page : VState)
    (vids : List VideoDesc) (evs : List Event) (t : Nat) (hb : Blank page)
    (ht : ∃ c ∈ activeCards (run parse (loadVideos page vids) evs),
      c.player.node = t ∧ c.player.isVideo = true) :
    (∀ q ∈ players (step parse (run parse (loadVideos page vids) evs) (Event.play t)),
        q.isVideo = true → q.node ≠ t → q.playing = false) ∧
      (∃ p, findPlayer (run parse (loadVideos page vids) evs) t = some p ∧
        p.isVideo = true ∧
        findPlayer (step parse (run parse (loadVideos page vids) evs) (Event.play t)) t =
          some { p with playing := true }) ∧
      nativePlaying (step parse (run parse (loadVideos page vids) evs) (Event.play t)) ≤ 1 := by
  have hI := inv_reached parse hb vids evs
  obtain ⟨c, hc, rfl, hv⟩ := ht
  have hfind := findPlayer_of_mem hI (mem_players_of_active hc)
  refine ⟨?_, ⟨c.player, hfind, hv, ?_⟩, ?_⟩
  · intro q hq hqv hne
    cases hpl : q.playing
    · rfl
    · exact absurd (loud_after_play parse _ hI _ hfind hv q hq (loud_of_native hqv hpl)) hne
  · rw [step_play_eq parse _ _ _ hfind hv]
    have hn : ∀ q, (((pauseIf (playHits c.player.node))^[listenersAt
        (run parse (loadVideos page vids) evs) c.player.node] ∘
        (fun q => if q.node == c.player.node && q.isVideo then { q with playing := true }
          else q)) q).node = q.node := by
      intro q
      exact (tame_comp (tame_iterate (pauseIf_tame _) _) (startPlayback_tame _) q).1
    rw [findPlayer_mapPlayers _ hn, hfind]
    simp only [Option.map_some', Function.comp_apply, beq_self_eq_true, hv, Bool.and_self,
      if_true]
    rw [pauseIf_iterate _ (playHits_stable _)]
    have : playHits c.player.node { c.player with playing := true } = false := by
      unfold playHits
      unfold Player.isVideo at hv
      cases hm : c.player.media with
      | video a b => simp [hm]
      | liteYoutube a b => rw [hm] at hv; cases hv
    simp [this]
  · exact Nat.le_trans (nativePlaying_le _) (loudCount_after_play parse _ hI _ hfind hv)

/-- Witness of C1: the first video of a page with four descriptors is played while the
fourth, shown in the grid, is already playing. -/
theorem play_pauses_other_natives_witness :
    Blank page0 ∧
      (∃ c ∈ activeCards (run parseOnly (loadVideos page0 fixture4)
          [Event.toggle, Event.play 6]), c.player.node = 3 ∧ c.player.isVideo = true) ∧
      nativePlaying (run parseOnly (loadVideos page0 fixture4)
          [Event.toggle, Event.play 6]) = 1 ∧
      nativePlaying (step parseOnly (run parseOnly (loadVideos page0 fixture4)
          [Event.toggle, Event.play 6]) (Event.play 3)) ≤ 1 :=
  ⟨blank_page0, by decide, by decide,
    (play_pauses_other_natives parseOnly page0 fixture4 [Event.toggle, Event.play 6] 3
      blank_page0 (by decide)).2.2⟩

/-- Counterexample to C2: two embedded players. The first is clicked; the second is
clicked, and the first, sent the pause command, stops. Then the first resumes on its own.
Its now-playing message pauses native elements only, so both embedded players play, with
no timeout pending and neither having been sent a command since it started. -/
theorem two_embedded_play_together :
    playingCount (run parseOnly (loadVideos page0 [embeddedDesc "b", embeddedDesc "c"])
        [Event.clickYt 0, Event.timer, Event.clickYt 1, Event.timer, Event.stop 0,
          Event.resume 0, Event.message "https://www.youtube.com" nowPlayingText]) = 2 ∧
      loudCount (run parseOnly (loadVideos page0 [embeddedDesc "b", embeddedDesc "c"])
        [Event.clickYt 0, Event.timer, Event.clickYt 1, Event.timer, Event.stop 0,
          Event.resume 0, Event.message "https://www.youtube.com" nowPlayingText]) = 2 ∧
      (run parseOnly (loadVideos page0 [embeddedDesc "b", embeddedDesc "c"])
        [Event.clickYt 0, Event.timer, Event.clickYt 1, Event.timer, Event.stop 0,
          Event.resume 0, Event.message "https://www.youtube.com" nowPlayingText]).timers
        = [] := by
  decide

/-- C2, amended. In every state reached from a blank page by native play events, clicks on
embedded players, timeouts, messages, surface toggles, and elements that stop or resume on
their own: at most one native element plays. The script only sends pause commands to
embedded players, so for them the bound is on attempts: as long as no embedded player has
resumed on its own, whenever no timeout is pending at most one instance plays without
having been sent a pause command since it started; hence at most one instance plays
there if every embedded player that was sent the command has stopped. -/
theorem playing_invariant (parse : String → Option JVal) (page : VState)
    (vids : List VideoDesc) (evs : List Event) (hb : Blank page) :
    nativePlaying (run parse (loadVideos page vids) evs) ≤ 1 ∧
      ((∀ n, Event.resume n ∉ evs) →
        (run parse (loadVideos page vids) evs).timers = [] →
        loudCount (run parse (loadVideos page vids) evs) ≤ 1) ∧
      ((∀ n, Event.resume n ∉ evs) →
        (run parse (loadVideos page vids) evs).timers = [] →
        (∀ p ∈ players (run parse (loadVideos page vids) evs),
          p.isYt = true → p.pauseSent = true → p.playing = false) →
        playingCount (run parse (loadVideos page vids) evs) ≤ 1) := by
  have h0 := loaded_nothing_plays hb vids
  have hl : loudCount (loadVideos page vids) = 0 := by
    have := loudCount_le (loadVideos page vids)
    omega
  have hn : nativePlaying (loadVideos page vids) = 0 := by
    have := nativePlaying_le (loadVideos page vids)
    omega
  obtain ⟨_, a1, a2⟩ := playing_invariant_aux parse (loadVideos page vids)
    (inv_loadVideos hb vids) (by omega) (fun _ => by omega) evs
  refine ⟨a1, a2, ?_⟩
  intro h1 h2 h3
  rw [playingCount_eq_loudCount _ h3]
  exact a2 h1 h2

/-- Witness of C2, amended: a native element plays, then an embedded player is clicked and
its timeout fires; and two embedded players are clicked one after the other, the first of
which stops once it has been sent the command. -/
theorem playing_invariant_witness :
    Blank page0 ∧
      nativePlaying (run parseOnly (loadVideos page0 fixture4)
        [Event.play 0, Event.clickYt 1, Event.timer]) ≤ 1 ∧
      loudCount (run parseOnly (loadVideos page0 fixture4)
        [Event.play 0, Event.clickYt 1, Event.timer]) ≤ 1 ∧
      playingCount (run parseOnly (loadVideos page0 fixture4)
        [Event.play 0, Event.clickYt 1, Event.timer]) = 1 ∧
      playingCount (run parseOnly (loadVideos page0 [embeddedDesc "b", embeddedDesc "c"])
        [Event.clickYt 0, Event.timer, Event.clickYt 1, Event.timer, Event.stop 0]) ≤ 1 ∧
      playingCount (run parseOnly (loadVideos page0 [embeddedDesc "b", embeddedDesc "c"])
        [Event.clickYt 0, Event.timer, Event.clickYt 1, Event.timer, Event.stop 0]) = 1 :=
  ⟨blank_page0,
    (playing_invariant parseOnly page0 fixture4 [Event.play 0, Event.clickYt 1, Event.timer]
      blank_page0).1,
    (playing_invariant parseOnly page0 fixture4 [Event.play 0, Event.clickYt 1, Event.timer]
      blank_page0).2.1 (fun n h => by simp at h) (by decide),
    by decide,
    (playing_invariant parseOnly page0 [embeddedDesc "b", embeddedDesc "c"]
      [Event.clickYt 0, Event.timer, Event.clickYt 1, Event.timer, Event.stop 0]
      blank_page0).2.2 (fun n h => by simp at h) (by decide) (by decide),
    by decide⟩

/-- The bound is on attempts: two embedded players clicked one after the other have both
been started and the first has been sent the pause command; if it does not obey, both play,
but only the second plays without having been sent a command. -/
theorem first_clicked_was_sent_command :
    playingCount (run parseOnly (loadVideos page0 [embeddedDesc "b", embeddedDesc "c"])
        [Event.clickYt 0, Event.timer, Event.clickYt 1, Event.timer]) = 2 ∧
      loudCount (run parseOnly (loadVideos page0 [embeddedDesc "b", embeddedDesc "c"])
        [Event.clickYt 0, Event.timer, Event.clickYt 1, Event.timer]) = 1 := by
  decide

theorem listeners_step (parse : String → Option JVal) (s : VState) (e : Event) :
    (step parse s e).carouselListeners =
        (if e = Event.toggle ∧ s.isExpanded = true then s.carouselListeners + 1
          else s.carouselListeners) ∧
      (step parse s e).gridListeners =
        (if e = Event.toggle ∧ s.isExpanded = false then s.gridListeners + 1
          else s.gridListeners) := by
  by_cases he : e = Event.toggle
  · subst he
    show (onToggle s).carouselListeners = _ ∧ (onToggle s).gridListeners = _
    cases h : s.isExpanded
    · rw [onToggle_expand h]; simp
    · rw [onToggle_collapse h]; simp
  · have hl := (sameLayout_step parse s e he).1
    simp only [chrome, Prod.mk.injEq] at hl
    obtain ⟨_, _, _, _, _, h6, h7, _⟩ := hl
    simp [he, h6, h7]

/-- The number of listeners on each container after `k` clicks on the toggle. -/
theorem listeners_run (parse : String → Option JVal) {page : VState} (hb : Blank page)
    (vids : List VideoDesc) (evs : List Event) :
    (run parse (loadVideos page vids) evs).carouselListeners =
        1 + evs.count Event.toggle / 2 ∧
      (run parse (loadVideos page vids) evs).gridListeners =
        (evs.count Event.toggle + 1) / 2 := by
  induction evs using List.reverseRecOn with
  | nil =>
    rw [loadVideos_eq]
    simp [run, hb.2.2.2.1, hb.2.2.2.2]
  | append_singleton xs e ih =>
    obtain ⟨i1, i2⟩ := ih
    have hx := isExpanded_run parse xs (loadVideos page vids)
    have h0 : (loadVideos page vids).isExpanded = false := rfl
    rw [h0] at hx
    obtain ⟨s1, s2⟩ := listeners_step parse (run parse (loadVideos page vids) xs) e
    rw [run_snoc, s1, s2, i1, i2, hx, List.count_append]
    by_cases he : e = Event.toggle
    · subst he
      rcases Nat.mod_two_eq_zero_or_one (List.count Event.toggle xs) with hm | hm
      · have : ¬ (List.count Event.toggle xs % 2 = 1) := by omega
        simp [hm]
        omega
      · simp [hm]
        omega
    · have hc : List.count Event.toggle [e] = 0 := by
        rw [List.count_eq_zero]
        intro h
        rw [List.mem_singleton] at h
        exact he h.symm
      simp [he, hc]

/-- As long as the toggle was clicked at most once, the active container carries one
listener of each kind. -/
theorem single_listener (parse : String → Option JVal) {page : VState} (hb : Blank page)
    (vids : List VideoDesc) (evs : List Event) (h : evs.count Event.toggle ≤ 1) (c : Card)
    (hc : c ∈ activeCards (run parse (loadVideos page vids) evs)) :
    listenersAt (run parse (loadVideos page vids) evs) c.player.node = 1 := by
  obtain ⟨l1, l2⟩ := listeners_run parse hb vids evs
  have hx := isExpanded_run parse evs (loadVideos page vids)
  have h0 : (loadVideos page vids).isExpanded = false := rfl
  rw [h0] at hx
  have hI := inv_reached parse hb vids evs
  unfold activeCards at hc
  unfold listenersAt
  rcases Nat.lt_or_ge (evs.count Event.toggle) 1 with hk | hk
  · have hk0 : evs.count Event.toggle = 0 := by omega
    rw [hk0] at hx l1
    simp only [Nat.zero_mod, Nat.zero_ne_one, if_false] at hx
    rw [hx] at hc
    simp only [Bool.false_eq_true, if_false] at hc
    rw [if_pos (List.any_eq_true.mpr ⟨c, hc, by simp⟩), l1]
  · have hk1 : evs.count Event.toggle = 1 := by omega
    rw [hk1] at hx l2
    simp only [Nat.one_mod, if_true, Bool.not_false] at hx
    rw [hx] at hc
    simp only [if_true] at hc
    have hnot : ¬ ((run parse (loadVideos page vids) evs).carousel.any
        (fun d => d.player.node == c.player.node) = true) := by
      intro hany
      obtain ⟨d, hd, hdn⟩ := List.any_eq_true.mp hany
      have hn := hI.nodup
      have : (players (run parse (loadVideos page vids) evs)).map Player.node =
          (run parse (loadVideos page vids) evs).carousel.map (fun c => c.player.node) ++
            (run parse (loadVideos page vids) evs).grid.map (fun c => c.player.node) := by
        simp [players, List.map_map, Function.comp_def]
      rw [this, List.nodup_append] at hn
      apply hn.2.2 (List.mem_map_of_mem (fun c => c.player.node) hd)
      have hdn2 : d.player.node = c.player.node := by simpa using hdn
      rw [hdn2]
      exact List.mem_map_of_mem (fun c => c.player.node) hc
    rw [if_neg hnot, if_pos (List.any_eq_true.mpr ⟨c, hc, by simp⟩), l2]

/-- Counterexample to C3: on a freshly loaded page with one native and one embedded
descriptor, the embedded player has not been activated and has no iframe; when the
native element starts playing, no pause command is posted to it. -/
theorem play_posts_nothing_without_iframe :
    (players (loadVideos page0 [nativeDesc "a", embeddedDesc "b"])).map
        (fun q => (q.node, q.isYt, q.hasIframe, q.pauseCalls)) =
        [(0, false, false, 0), (1, true, false, 0)] ∧
      (players (step parseOnly (loadVideos page0 [nativeDesc "a", embeddedDesc "b"])
          (Event.play 0))).map (fun q => (q.node, q.isYt, q.hasIframe, q.pauseCalls)) =
        [(0, false, false, 0), (1, true, false, 0)] := by
  decide

/-- The count of commands after the surfaces were switched to the grid and back: the
carousel then carries two `play` listeners, and an activated embedded player is sent the
pause command twice by one `play` event. -/
theorem play_after_round_trip_posts_twice :
    (players (run parseOnly (loadVideos page0 [nativeDesc "a", embeddedDesc "b"])
        [Event.clickYt 1, Event.timer, Event.toggle, Event.toggle])).map
      (fun q => (q.node, q.isYt, q.hasIframe, q.pauseCalls)) =
      [(0, false, false, 1), (1, true, true, 0), (2, false, false, 0), (3, true, false, 0)] ∧
    (players (run parseOnly (loadVideos page0 [nativeDesc "a", embeddedDesc "b"])
        [Event.clickYt 1, Event.timer, Event.toggle, Event.toggle, Event.play 0])).map
      (fun q => (q.node, q.isYt, q.hasIframe, q.pauseCalls)) =
      [(0, false, false, 1), (1, true, true, 2), (2, false, false, 2), (3, true, false, 0)] := by
  decide

/-- C3, amended. In every state reached from a blank page, a `play` event on a native
element of the active surface posts the pause command to every embedded player whose
shadow root holds an iframe, and posts nothing to an embedded player without an iframe;
as long as the toggle was clicked at most once, so that the active container carries a
single `play` listener, each embedded player with an iframe is sent the command exactly
once. -/
theorem native_play_posts_pause (parse : String → Option JVal) (page : VState)
    (vids : List VideoDesc) (evs : List Event) (t : Nat) (hb : Blank page)
    (ht : ∃ c ∈ activeCards (run parse (loadVideos page vids) evs),
      c.player.node = t ∧ c.player.isVideo = true) :
    List.Forall₂
      (fun q q' => q'.node = q.node ∧ (q.isYt = true →
        (q.hasIframe = false → q'.pauseCalls = q.pauseCalls) ∧
        (q.hasIframe = true → q.pauseCalls < q'.pauseCalls ∧
          (evs.count Event.toggle ≤ 1 → q'.pauseCalls = q.pauseCalls + 1))))
      (players (run parse (loadVideos page vids) evs))
      (players (step parse (run parse (loadVideos page vids) evs) (Event.play t))) := by
  have hI := inv_reached parse hb vids evs
  obtain ⟨c, hc, rfl, hv⟩ := ht
  have hfind := findPlayer_of_mem hI (mem_players_of_active hc)
  have hk := listenersAt_pos_of_mem hI (mem_players_of_active hc)
  rw [step_play_eq parse _ _ _ hfind hv, players_mapPlayers, List.forall₂_map_right_iff,
    List.forall₂_same]
  intro q _
  refine ⟨(tame_comp (tame_iterate (pauseIf_tame _) _) (startPlayback_tame _) q).1, ?_⟩
  intro hy
  have hnv : q.isVideo = false := by
    rw [isYt_eq_not_isVideo] at hy
    simpa using hy
  have hhit : playHits c.player.node q = q.hasIframe := by
    unfold playHits
    unfold Player.isYt at hy
    cases hm : q.media with
    | video a b => rw [hm] at hy; cases hy
    | liteYoutube a b => rfl
  simp only [Function.comp_apply, hnv, Bool.and_false, Bool.false_eq_true, if_false]
  rw [pauseIf_iterate _ (playHits_stable _), hhit]
  refine ⟨?_, ?_⟩
  · intro hno
    simp [hno]
  · intro hyes
    rw [if_pos ⟨hyes, hk⟩]
    refine ⟨?_, ?_⟩
    · show q.pauseCalls < q.pauseCalls + _
      omega
    · intro hnt
      rw [single_listener parse hb vids evs hnt c hc]
      rfl

/-- Witness of C3, amended: an embedded player is activated, then a native element of the
same surface starts playing. -/
theorem native_play_posts_pause_witness :
    Blank page0 ∧
      (∃ c ∈ activeCards (run parseOnly (loadVideos page0 fixture4)
          [Event.clickYt 1, Event.timer]), c.player.node = 0 ∧ c.player.isVideo = true) ∧
      List.Forall₂
        (fun q q' => q'.node = q.node ∧ (q.isYt = true →
          (q.hasIframe = false → q'.pauseCalls = q.pauseCalls) ∧
          (q.hasIframe = true → q.pauseCalls < q'.pauseCalls ∧
            ([Event.clickYt 1, Event.timer].count Event.toggle ≤ 1 →
              q'.pauseCalls = q.pauseCalls + 1))))
        (players (run parseOnly (loadVideos page0 fixture4) [Event.clickYt 1, Event.timer]))
        (players (step parseOnly (run parseOnly (loadVideos page0 fixture4)
          [Event.clickYt 1, Event.timer]) (Event.play 0))) :=
  ⟨blank_page0, by decide,
    native_play_posts_pause parseOnly page0 fixture4 [Event.clickYt 1, Event.timer] 0
      blank_page0 (by decide)⟩

/-! ## Click on an embedded player -/

theorem foldl_timerCallback_replicate (k t : Nat) (a : VState) :
    (List.replicate k t).foldl (fun acc x => timerCallback x acc) a =
      (timerCallback t)^[k] a := by
  induction k generalizing a with
  | zero => rfl
  | succ k ih =>
    rw [List.replicate_succ, List.foldl_cons, ih, Function.iterate_succ_apply]

theorem timerCallback_iterate (t k : Nat) (a : VState) :
    (timerCallback t)^[k] a = mapPlayers ((pauseIf (timerHits t))^[k]) a := by
  induction k with
  | zero => simp [mapPlayers_id, mapPlayers]
  | succ k ih =>
    rw [Function.iterate_succ_apply', ih, Function.iterate_succ']
    unfold timerCallback
    rw [timerEffect_eq, mapPlayers_mapPlayers]

/-- The elements after a click on an embedded player and its timeouts, element by
element. -/
theorem players_settle_click (parse : String → Option JVal) (t : Nat) (s : VState)
    (p : Player) (hp : findPlayer s t = some p) (hv : p.isYt = true) (hq : s.timers = []) :
    players (settle (step parse s (Event.clickYt t))) =
      (players s).map ((pauseIf (timerHits t))^[listenersAt s t] ∘
        (fun q =>
          if q.node == t && q.isYt then
            { q with hasIframe := true, playing := true, pauseSent := false }
          else q)) := by
  rw [step_click_eq parse t s p hp hv]
  unfold settle
  simp only [hq, List.nil_append]
  rw [foldl_timerCallback_replicate, timerCallback_iterate, players_mapPlayers]
  have : players { activate t s with timers := ([] : List Nat) } = players (activate t s) := rfl
  rw [this]
  unfold activate
  rw [players_mapPlayers, List.map_map]

/-- Counterexample to C4: two embedded players and a native element. The first embedded
player is clicked; after the delay the native element has been paused, but the other
embedded player, which has no iframe yet, has received no pause command. -/
theorem click_posts_nothing_without_iframe :
    (players (settle (step parseOnly
        (loadVideos page0 [embeddedDesc "b", embeddedDesc "c", nativeDesc "a"])
        (Event.clickYt 0)))).map (fun q => (q.node, q.isYt, q.hasIframe, q.pauseCalls)) =
      [(0, true, true, 0), (1, true, false, 0), (2, false, false, 1)] := by
  decide

/-- C4, amended. In every state reached from a blank page in which no timeout is pending,
after a click on an embedded player of the active surface and once its timeouts have
fired: every native element is paused and has received a pause call; every other embedded
player whose shadow root holds an iframe has been sent a pause command; an embedded player
without an iframe has received none; and the clicked player has received none. -/
theorem click_pauses_others (parse : String → Option JVal) (page : VState)
    (vids : List VideoDesc) (evs : List Event) (t : Nat) (hb : Blank page)
    (hq : (run parse (loadVideos page vids) evs).timers = [])
    (ht : ∃ c ∈ activeCards (run parse (loadVideos page vids) evs),
      c.player.node = t ∧ c.player.isYt = true) :
    List.Forall₂
      (fun q q' => q'.node = q.node ∧
        (q.isVideo = true → q'.playing = false ∧ q.pauseCalls < q'.pauseCalls) ∧
        (q.isYt = true → q.node ≠ t → q.hasIframe = true →
          q'.pauseSent = true ∧ q.pauseCalls < q'.pauseCalls) ∧
        (q.isYt = true → q.node ≠ t → q.hasIframe = false →
          q'.pauseCalls = q.pauseCalls) ∧
        (q.node = t → q'.pauseCalls = q.pauseCalls))
      (players (run parse (loadVideos page vids) evs))
      (players (settle (step parse (run parse (loadVideos page vids) evs)
        (Event.clickYt t)))) := by
  have hI := inv_reached parse hb vids evs
  obtain ⟨c, hc, rfl, hv⟩ := ht
  have hfind := findPlayer_of_mem hI (mem_players_of_active hc)
  have hk := listenersAt_pos_of_mem hI (mem_players_of_active hc)
  rw [players_settle_click parse _ _ _ hfind hv hq, List.forall₂_map_right_iff,
    List.forall₂_same]
  intro q hqm
  refine ⟨(tame_comp (tame_iterate (pauseIf_tame _) _) (activate_tame _) q).1, ?_⟩
  simp only [Function.comp_apply]
  rw [pauseIf_iterate _ (timerHits_stable _)]
  by_cases hn : q.node = c.player.node
  · -- the clicked element
    have hqc : q = c.player := by
      have h1 := findPlayer_of_mem hI hqm
      rw [hn, hfind] at h1
      exact (Option.some.inj h1).symm
    subst hqc
    have hnv : c.player.isVideo = false := by
      rw [isYt_eq_not_isVideo] at hv
      simpa using hv
    have hhit : timerHits c.player.node
        { c.player with hasIframe := true, playing := true, pauseSent := false } = false := by
      unfold timerHits
      cases hm : c.player.media <;> simp [hm, Player.isVideo] at hnv ⊢
    simp [hv, hnv, hhit]
  · have hx : (q.node == c.player.node && q.isYt) = false := by simp [hn]
    rw [hx]
    simp only [Bool.false_eq_true, if_false]
    cases hm : q.media with
    | video a b =>
      have h1 : q.isVideo = true := by simp [Player.isVideo, hm]
      have h2 : q.isYt = false := by simp [Player.isYt, hm]
      have h3 : timerHits c.player.node q = true := by simp [timerHits, hm]
      rw [if_pos ⟨h3, hk⟩]
      refine ⟨fun _ => ⟨?_, ?_⟩, ?_, ?_, fun h => absurd h hn⟩
      · show (q.playing && q.isYt) = false
        rw [h2, Bool.and_false]
      · show q.pauseCalls < q.pauseCalls + _
        omega
      · intro h; rw [h2] at h; cases h
      · intro h; rw [h2] at h; cases h
    | liteYoutube a b =>
      have h1 : q.isVideo = false := by simp [Player.isVideo, hm]
      have h3 : timerHits c.player.node q = q.hasIframe := by simp [timerHits, hm, hn]
      rw [h3]
      refine ⟨?_, ?_, ?_, fun h => absurd h hn⟩
      · intro h; rw [h1] at h; cases h
      · intro _ _ hi
        rw [if_pos ⟨hi, hk⟩]
        have h2 : q.isYt = true := by simp [Player.isYt, hm]
        refine ⟨?_, ?_⟩
        · show (q.pauseSent || q.isYt) = true
          rw [h2, Bool.or_true]
        · show q.pauseCalls < q.pauseCalls + _
          omega
      · intro _ _ hi
        simp [hi]

/-- Witness of C4, amended: the third card is clicked after the second was activated. -/
theorem click_pauses_others_witness :
    Blank page0 ∧
      (run parseOnly (loadVideos page0 fixture4)
        [Event.play 0, Event.clickYt 1, Event.timer]).timers = [] ∧
      (∃ c ∈ activeCards (run parseOnly (loadVideos page0 fixture4)
          [Event.play 0, Event.clickYt 1, Event.timer]),
        c.player.node = 2 ∧ c.player.isYt = true) ∧
      List.Forall₂
        (fun q q' => q'.node = q.node ∧
          (q.isVideo = true → q'.playing = false ∧ q.pauseCalls < q'.pauseCalls) ∧
          (q.isYt = true → q.node ≠ 2 → q.hasIframe = true →
            q'.pauseSent = true ∧ q.pauseCalls < q'.pauseCalls) ∧
          (q.isYt = true → q.node ≠ 2 → q.hasIframe = false →
            q'.pauseCalls = q.pauseCalls) ∧
          (q.node = 2 → q'.pauseCalls = q.pauseCalls))
        (players (run parseOnly (loadVideos page0 fixture4)
          [Event.play 0, Event.clickYt 1, Event.timer]))
        (players (settle (step parseOnly (run parseOnly (loadVideos page0 fixture4)
          [Event.play 0, Event.clickYt 1, Event.timer]) (Event.clickYt 2)))) :=
  ⟨blank_page0, by decide, by decide,
    click_pauses_others parseOnly page0 fixture4
      [Event.play 0, Event.clickYt 1, Event.timer] 2 blank_page0 (by decide) (by decide)⟩

/-- A timeout left by an earlier click reaches the player clicked next: with the two
clicks less than the delay apart, the callback of the first posts the pause command to
the second player, which has its iframe by then. -/
theorem earlier_timeout_reaches_clicked :
    (players (settle (run parseOnly (loadVideos page0 [embeddedDesc "b", embeddedDesc "c"])
        [Event.clickYt 0, Event.clickYt 1]))).map
      (fun q => (q.node, q.isYt, q.hasIframe, q.pauseCalls)) =
      [(0, true, true, 1), (1, true, true, 1)] := by
  decide

/-! ## Malformed messages -/

theorem isVideoProgress_iff (ev : Option JVal) :
    JVal.isVideoProgress ev = true ↔ ev = some (JVal.str "video-progress") := by
  unfold JVal.isVideoProgress
  split
  · rename_i s
    constructor
    · intro h
      have : s = "video-progress" := by simpa using h
      rw [this]
    · intro h
      injection h with h1
      injection h1 with h2
      simp [h2]
  · rename_i hne
    constructor
    · intro h; cases h
    · intro h
      exact absurd h (hne "video-progress")

theorem isOne_iff (st : Option JVal) :
    JVal.isOne st = true ↔ st = some (JVal.num 1) := by
  unfold JVal.isOne
  split
  · rename_i x
    constructor
    · intro h
      have : x = 1 := by simpa using h
      rw [this]
    · intro h
      injection h with h1
      injection h1 with h2
      simp [h2]
  · rename_i hne
    constructor
    · intro h; cases h
    · intro h
      exact absurd h (hne 1)

/-- The condition of the listener holds only for the two shapes of the specification. -/
theorem messageMatches_shape (d : JVal) (h : messageMatches d = some true) :
    hasVideoProgress d ∨ hasNowPlayingState d := by
  unfold messageMatches at h
  cases he : d.prop "event" with
  | none => rw [he] at h; cases h
  | some ev =>
    rw [he] at h
    simp only at h
    by_cases hv : JVal.isVideoProgress ev = true
    · left
      unfold hasVideoProgress
      rw [he, (isVideoProgress_iff ev).mp hv]
    · right
      rw [if_neg hv] at h
      cases hi : d.prop "info" with
      | none => rw [hi] at h; cases h
      | some info =>
        rw [hi] at h
        simp only at h
        by_cases ht : JVal.truthy info = true
        · rw [if_pos ht] at h
          cases info with
          | none => simp at h
          | some i =>
            simp only at h
            cases hp : i.prop "playerState" with
            | none => rw [hp] at h; cases h
            | some st =>
              rw [hp] at h
              simp only [Option.some.injEq] at h
              exact ⟨i, hi, by rw [hp, (isOne_iff st).mp h]⟩
        · rw [if_neg ht] at h
          cases h

/-- C11. A message from the trusted origin whose data is not valid JSON, or parses to a
value that neither has `event` equal to `'video-progress'` nor has `info.playerState`
equal to `1`, leaves the whole state as it is: nothing is paused and no counter moves.
The errors thrown on the way (`JSON.parse` on invalid text, a property read on `null`)
are caught by the listener, which always returns. -/
theorem malformed_message_ignored (parse : String → Option JVal) (data : String) (s : VState)
    (h : parse data = none ∨
      ∃ d, parse data = some d ∧ ¬ hasVideoProgress d ∧ ¬ hasNowPlayingState d) :
    onMessage parse "https://www.youtube.com" data s = s ∧
      step parse s (Event.message "https://www.youtube.com" data) = s ∧
      players (step parse s (Event.message "https://www.youtube.com" data)) = players s := by
  have key : onMessage parse "https://www.youtube.com" data s = s := by
    unfold onMessage
    rcases h with h | ⟨d, hd, h1, h2⟩
    · simp [h]
    · rw [hd]
      simp only [bne_self_eq_false, Bool.false_eq_true, if_false]
      cases hm : messageMatches d with
      | none => rfl
      | some b =>
        cases b with
        | false => rfl
        | true =>
          rcases messageMatches_shape d hm with h3 | h3
          · exact absurd h3 h1
          · exact absurd h3 h2
  exact ⟨key, key, congrArg players key⟩

/-- Witness of C11: the text `null` parses, but reading `event` from `null` throws; the
native element that plays keeps playing. -/
theorem malformed_message_ignored_witness :
    (parseSample "null" = none ∨
        ∃ d, parseSample "null" = some d ∧ ¬ hasVideoProgress d ∧ ¬ hasNowPlayingState d) ∧
      onMessage parseSample "https://www.youtube.com" "null"
          (run parseSample (loadVideos page0 fixture4) [Event.play 0]) =
        run parseSample (loadVideos page0 fixture4) [Event.play 0] :=
  ⟨Or.inr ⟨JVal.null, rfl, by simp [hasVideoProgress, JVal.prop],
      by simp [hasNowPlayingState, JVal.prop]⟩,
    (malformed_message_ignored parseSample "null"
      (run parseSample (loadVideos page0 fixture4) [Event.play 0])
      (Or.inr ⟨JVal.null, rfl, by simp [hasVideoProgress, JVal.prop],
        by simp [hasNowPlayingState, JVal.prop]⟩)).1⟩

/-- Texts that are ignored, one for each kind of value: invalid JSON, `null`, a number, an
array, and an object whose player state is not `1`. -/
theorem malformed_samples_ignored (s : VState) :
    onMessage parseSample "https://www.youtube.com" "not json" s = s ∧
      onMessage parseSample "https://www.youtube.com" "null" s = s ∧
      onMessage parseSample "https://www.youtube.com" "5" s = s ∧
      onMessage parseSample "https://www.youtube.com" "[]" s = s ∧
      onMessage parseSample "https://www.youtube.com"
        "\x7b\"info\":\x7b\"playerState\":2\x7d\x7d" s = s := by
  refine ⟨?_, ?_, ?_, ?_, ?_⟩ <;>
    simp [onMessage, parseSample, nowPlayingText, messageMatches, JVal.prop,
      JVal.isVideoProgress, JVal.truthy, JVal.isOne]

/-! ## Failure to load the fixture -/

/-- Counterexample to C12: on a non-OK response the function returns from inside the `try`
block; the surfaces stay empty, but `console.warn` is not called. -/
theorem not_ok_response_logs_nothing :
    (FetchOutcome.response false none).failed = true ∧
      (videos page0 (FetchOutcome.response false none)).warnings = [] ∧
      (videos page0 (FetchOutcome.response false none)).state.carousel = [] ∧
      (videos page0 (FetchOutcome.response false none)).state.grid = [] := by
  decide

/-- C12, amended. On every failure to load the fixture the document is left as it was, so
containers that were empty hold no card afterwards, and the function returns normally.
When the request is rejected or the body is not JSON, `console.warn` is called once, with
`Videos not loaded`; on a non-OK response nothing is logged. -/
theorem load_failure_leaves_surfaces (page : VState) (outcome : FetchOutcome)
    (hf : outcome.failed = true) (hc : page.carousel = []) (hg : page.grid = []) :
    (videos page outcome).state = page ∧
      (videos page outcome).state.carousel = [] ∧
      (videos page outcome).state.grid = [] ∧
      (outcome = FetchOutcome.networkError ∨ outcome = FetchOutcome.response true none →
        (videos page outcome).warnings = ["Videos not loaded"]) ∧
      (∀ body, outcome = FetchOutcome.response false body →
        (videos page outcome).warnings = []) := by
  have hs : (videos page outcome).state = page := by
    cases outcome with
    | networkError => rfl
    | response ok body =>
      cases ok with
      | false => rfl
      | true =>
        cases body with
        | none => rfl
        | some vids => simp [FetchOutcome.failed] at hf
  refine ⟨hs, by rw [hs]; exact hc, by rw [hs]; exact hg, ?_, ?_⟩
  · intro h
    rcases h with h | h <;> rw [h] <;> rfl
  · intro body h
    rw [h]
    rfl

/-- Witness of C12, amended: the request is rejected on a blank page. -/
theorem load_failure_leaves_surfaces_witness :
    FetchOutcome.networkError.failed = true ∧ page0.carousel = [] ∧ page0.grid = [] ∧
      (videos page0 FetchOutcome.networkError).state = page0 ∧
      (videos page0 FetchOutcome.networkError).warnings = ["Videos not loaded"] :=
  ⟨rfl, rfl, rfl,
    (load_failure_leaves_surfaces page0 FetchOutcome.networkError rfl rfl rfl).1,
    (load_failure_leaves_surfaces page0 FetchOutcome.networkError rfl rfl rfl).2.2.2.1
      (Or.inl rfl)⟩

/-- A successful load is the loader of the first part: no warning, the first three cards in
the carousel. -/
theorem load_success (page : VState) (vids : List VideoDesc) :
    videos page (FetchOutcome.response true (some vids)) =
      { state := loadVideos page vids, warnings := [] } := rfl

/-! ## The contact form -/

theorem dropWhile_reverse_dropWhile_nil (p : Char → Bool) (l : List Char) :
    ((l.dropWhile p).reverse.dropWhile p).reverse = [] ↔ ∀ c ∈ l, p c = true := by
  rw [List.reverse_eq_nil_iff, List.dropWhile_eq_nil_iff]
  constructor
  · intro h
    have hnil : l.dropWhile p = [] := by
      cases hd : l.dropWhile p with
      | nil => rfl
      | cons a t =>
        have h1 : p a = true := h a (by rw [hd]; simp)
        have h2 := List.head_dropWhile_not p l (by rw [hd]; simp)
        simp only [hd, List.head_cons] at h2
        rw [h1] at h2
        cases h2
    exact List.dropWhile_eq_nil_iff.mp hnil
  · intro h c hc
    rw [List.dropWhile_eq_nil_iff.mpr h] at hc
    simp at hc

theorem jsTrim_eq_empty_iff (s : String) : jsTrim s = "" ↔ Blankish s := by
  unfold jsTrim Blankish
  rw [← dropWhile_reverse_dropWhile_nil]
  constructor
  · intro h
    exact congrArg String.data h
  · intro h
    rw [h]

theorem find?_eq_head?_filter (p : (String × FormValue) → Bool)
    (l : List (String × FormValue)) : l.find? p = (l.filter p).head? := by
  induction l with
  | nil => rfl
  | cons a l ih =>
    by_cases h : p a = true
    · rw [List.find?_cons_of_pos _ h, List.filter_cons_of_pos h]
      rfl
    · rw [List.find?_cons_of_neg _ h, List.filter_cons_of_neg h, ih]

/-- The read `data[k]` gives the value of the last submitted entry named `k`. -/
theorem formField_eq (entries : List (String × FormValue)) (k : String) :
    formField entries k = ((entries.filter (fun e => e.1 == k)).getLast?).map Prod.snd := by
  unfold formField
  rw [find?_eq_head?_filter, List.filter_reverse, List.head?_reverse]

theorem fieldBlank_iff (entries : List (String × FormValue)) (k : String) :
    fieldBlank entries k ↔ jsTrim (fieldText (formField entries k)) = "" := by
  rw [formField_eq]
  unfold fieldBlank
  cases h : (entries.filter (fun e => e.1 == k)).getLast? with
  | none => simp [fieldText, jsTrim]
  | some e =>
    obtain ⟨n, v⟩ := e
    cases v with
    | text s =>
      simp only [Option.map_some', fieldText, jsTrim_eq_empty_iff]
      constructor
      · intro h1
        rcases h1 with h1 | h1
        · rw [h1]; intro c hc; simp at hc
        · exact h1
      · intro h1
        exact Or.inr h1
    | file f =>
      have : jsTrim "[object File]" ≠ "" := by decide
      simp [fieldText, this]

theorem missing_nonempty_iff (entries : List (String × FormValue)) :
    (missingFields entries).length ≠ 0 ↔
      (fieldBlank entries "name" ∨ fieldBlank entries "phone" ∨ fieldBlank entries "email") := by
  simp only [fieldBlank_iff]
  unfold missingFields
  by_cases h1 : jsTrim (fieldText (formField entries "name")) = "" <;>
  by_cases h2 : jsTrim (fieldText (formField entries "phone")) = "" <;>
  by_cases h3 : jsTrim (fieldText (formField entries "email")) = "" <;>
  simp [List.filter_cons, h1, h2, h3]

/-- The read `data[k]` of a required field looks only at the entries of the required
fields. -/
theorem formField_required (entries : List (String × FormValue)) (k : String)
    (hk : isRequired k = true) :
    formField (entries.filter (fun e => isRequired e.1)) k = formField entries k := by
  rw [formField_eq, formField_eq, List.filter_filter]
  congr 2
  apply List.filter_congr
  intro e _
  by_cases he : e.1 = k
  · simp [he, hk]
  · simp [he]

/-- C13. The submission is rejected, with the alert `Please fill all required fields.` and
without a reset of the form, exactly when one of the fields `name`, `phone`, `email` is
absent, empty or made of white space only; in every other case the form is reset and the
success alert shown. No other field matters: two submissions with the same entries for
these three names have the same outcome. -/
theorem contact_form_validation (entries : List (String × FormValue)) :
    (contactSubmit entries =
        { alert := "Please fill all required fields.", reset := false } ↔
      (fieldBlank entries "name" ∨ fieldBlank entries "phone" ∨ fieldBlank entries "email")) ∧
    (contactSubmit entries =
        { alert := "Thanks! We\x27ll contact you shortly.", reset := true } ↔
      ¬ (fieldBlank entries "name" ∨ fieldBlank entries "phone" ∨
        fieldBlank entries "email")) ∧
    (∀ other : List (String × FormValue),
      other.filter (fun e => isRequired e.1) = entries.filter (fun e => isRequired e.1) →
      contactSubmit other = contactSubmit entries) := by
  have hm := missing_nonempty_iff entries
  refine ⟨?_, ?_, ?_⟩
  · unfold contactSubmit
    by_cases h : (missingFields entries).length ≠ 0
    · have hb : ((missingFields entries).length != 0) = true := by simpa using h
      rw [if_pos hb]
      exact ⟨fun _ => hm.mp h, fun _ => rfl⟩
    · have hb : ¬ ((missingFields entries).length != 0) = true := by simpa using h
      rw [if_neg hb]
      constructor
      · intro h1
        exact absurd (congrArg SubmitResult.reset h1) (by decide)
      · intro h1
        exact absurd (hm.mpr h1) h
  · unfold contactSubmit
    by_cases h : (missingFields entries).length ≠ 0
    · have hb : ((missingFields entries).length != 0) = true := by simpa using h
      rw [if_pos hb]
      constructor
      · intro h1
        exact absurd (congrArg SubmitResult.reset h1) (by decide)
      · intro h1
        exact absurd (hm.mp h) h1
    · have hb : ¬ ((missingFields entries).length != 0) = true := by simpa using h
      rw [if_neg hb]
      exact ⟨fun _ h1 => h (hm.mpr h1), fun _ => rfl⟩
  · intro other h
    have h1 : formField other "name" = formField entries "name" := by
      rw [← formField_required other "name" rfl, h, formField_required entries "name" rfl]
    have h2 : formField other "phone" = formField entries "phone" := by
      rw [← formField_required other "phone" rfl, h, formField_required entries "phone" rfl]
    have h3 : formField other "email" = formField entries "email" := by
      rw [← formField_required other "email" rfl, h, formField_required entries "email" rfl]
    unfold contactSubmit missingFields
    simp only [List.filter_cons, List.filter_nil, h1, h2, h3]

/-- Witness of C13: a filled form is accepted, with or without a message; a phone number
made of a tab and spaces is rejected; so is a form without an email entry; and when a
name is repeated, the last entry counts. -/
theorem contact_form_validation_witness :
    contactSubmit [("name", FormValue.text "Ann"), ("phone", FormValue.text "12"),
        ("email", FormValue.text "a@b.c"), ("message", FormValue.text "")] =
      { alert := "Thanks! We\x27ll contact you shortly.", reset := true } ∧
    contactSubmit [("name", FormValue.text "Ann"), ("phone", FormValue.text "12"),
        ("email", FormValue.text "a@b.c"), ("message", FormValue.text "")] =
      contactSubmit [("name", FormValue.text "Ann"), ("phone", FormValue.text "12"),
        ("email", FormValue.text "a@b.c")] ∧
    contactSubmit [("name", FormValue.text "Ann"), ("phone", FormValue.text " \t "),
        ("email", FormValue.text "a@b.c")] =
      { alert := "Please fill all required fields.", reset := false } ∧
    contactSubmit [("name", FormValue.text "Ann"), ("phone", FormValue.text "12")] =
      { alert := "Please fill all required fields.", reset := false } ∧
    contactSubmit [("name", FormValue.text ""), ("phone", FormValue.text "12"),
        ("email", FormValue.text "a@b.c"), ("name", FormValue.text "Ann")] =
      { alert := "Thanks! We\x27ll contact you shortly.", reset := true } :=
  ⟨(contact_form_validation [("name", FormValue.text "Ann"), ("phone", FormValue.text "12"),
      ("email", FormValue.text "a@b.c"), ("message", FormValue.text "")]).2.1.mpr (by decide),
    (contact_form_validation [("name", FormValue.text "Ann"), ("phone", FormValue.text "12"),
      ("email", FormValue.text "a@b.c")]).2.2 _ (by decide),
    (contact_form_validation [("name", FormValue.text "Ann"),
      ("phone", FormValue.text " \t "), ("email", FormValue.text "a@b.c")]).1.mpr (by decide),
    (contact_form_validation [("name", FormValue.text "Ann"),
      ("phone", FormValue.text "12")]).1.mpr (by decide),
    (contact_form_validation [("name", FormValue.text ""), ("phone", FormValue.text "12"),
      ("email", FormValue.text "a@b.c"), ("name", FormValue.text "Ann")]).2.1.mpr
      (by decide)⟩

/-! ## The filter of the procedures -/

theorem string_eq_empty_iff (s : String) : s = "" ↔ s.data = [] := by
  constructor
  · intro h; rw [h]
  · intro h
    exact String.ext h

/-- The predicate of `render` is the predicate of the claim, for a `toLowerCase` that maps
the empty string to itself. -/
theorem procKeeps_eq (lower : String → String) (hl : lower "" = "") (filterCat q : String)
    (i : ProcItem) :
    procKeeps lower filterCat (lower (jsTrim q)) i = decide (procMatches lower filterCat q i) := by
  unfold procKeeps procMatches jsIncludes
  have hc : (filterCat == "All" || i.category == filterCat) =
      (decide (filterCat = "All") || decide (i.category = filterCat)) := by
    by_cases h1 : filterCat = "All" <;> by_cases h2 : i.category = filterCat <;> simp [h1, h2]
  rw [hc]
  by_cases hq : jsTrim q = ""
  · have hn : lower (jsTrim q) = "" := by rw [hq, hl]
    simp [hq, hn, hl]
  · by_cases hn : lower (jsTrim q) = ""
    · have hd : (lower (jsTrim q)).data = [] := (string_eq_empty_iff _).mp hn
      simp [hq, hn, hd]
    · have hb : (lower (jsTrim q) == "") = false := by simpa using hn
      simp [hq, hb, Bool.or_assoc]

theorem render_eq (lower : String → String) (hl : lower "" = "") (items : List ProcItem)
    (filterCat q : String) :
    render lower items filterCat q =
      if (items.filter (fun i => decide (procMatches lower filterCat q i))).length == 0 then
        [ProcNode.empty "No procedures match your search. Try a different term."]
      else (items.filter (fun i => decide (procMatches lower filterCat q i))).map procCard := by
  unfold render
  have : procKeeps lower filterCat (lower (jsTrim q)) =
      fun i => decide (procMatches lower filterCat q i) := by
    funext i
    exact procKeeps_eq lower hl filterCat q i
  simp only [this, List.length_map]

/-- C14. For every list of items, category and query, `render` shows the cards of exactly
the items that match the filter of the claim, in the order of the fixture; and it shows the
message `No procedures match your search. Try a different term.`, alone, exactly when
no item matches. -/
theorem render_shows_matches (lower : String → String) (hl : lower "" = "")
    (items : List ProcItem) (filterCat q : String) :
    ((∃ i ∈ items, procMatches lower filterCat q i) →
        render lower items filterCat q =
          (items.filter (fun i => decide (procMatches lower filterCat q i))).map procCard) ∧
      ((∀ i ∈ items, ¬ procMatches lower filterCat q i) →
        render lower items filterCat q =
          [ProcNode.empty "No procedures match your search. Try a different term."]) ∧
      (ProcNode.empty "No procedures match your search. Try a different term." ∈
          render lower items filterCat q ↔
        ∀ i ∈ items, ¬ procMatches lower filterCat q i) := by
  have hr := render_eq lower hl items filterCat q
  have hcases : (items.filter (fun i => decide (procMatches lower filterCat q i))).length = 0 ↔
      ∀ i ∈ items, ¬ procMatches lower filterCat q i := by
    rw [List.length_eq_zero, List.filter_eq_nil_iff]
    simp
  have h1 : (∃ i ∈ items, procMatches lower filterCat q i) →
      render lower items filterCat q =
        (items.filter (fun i => decide (procMatches lower filterCat q i))).map procCard := by
    intro ⟨i, hi, hm⟩
    have hne : ¬ (items.filter (fun i => decide (procMatches lower filterCat q i))).length = 0 :=
      fun h => (hcases.mp h) i hi hm
    rw [hr]
    simp [hne]
  have h2 : (∀ i ∈ items, ¬ procMatches lower filterCat q i) →
      render lower items filterCat q =
        [ProcNode.empty "No procedures match your search. Try a different term."] := by
    intro h
    rw [hr]
    simp [hcases.mpr h]
  refine ⟨h1, h2, ?_⟩
  constructor
  · intro hmem
    by_contra hcon
    have hex : ∃ i ∈ items, procMatches lower filterCat q i := by
      by_contra hno
      apply hcon
      intro i hi hm
      exact hno ⟨i, hi, hm⟩
    rw [h1 hex, List.mem_map] at hmem
    obtain ⟨i, _, hi⟩ := hmem
    cases hi
  · intro h
    rw [h2 h]
    exact List.mem_singleton.mpr rfl

/-- Witness of C14: the query `  SMILE ` on three sample procedures. -/
theorem render_shows_matches_witness :
    asciiLower "" = "" ∧
      (∃ i ∈ procSample, procMatches asciiLower "All" "  SMILE " i) ∧
      render asciiLower procSample "All" "  SMILE " =
        (procSample.filter
          (fun i => decide (procMatches asciiLower "All" "  SMILE " i))).map procCard ∧
      render asciiLower procSample "All" "  SMILE " =
        [ProcNode.card "w.jpg" "W" "Cosmetic" "Teeth Whitening" "Brighter smile" "whitening",
          ProcNode.card "v.jpg" "V" "Cosmetic" "Veneers" "Thin shells" "veneers"] :=
  ⟨rfl, by decide,
    (render_shows_matches asciiLower rfl procSample "All" "  SMILE ").1 (by decide),
    by decide⟩

/-! ## Keyboard navigation in the lightbox -/

theorem photoAt_isSome (photos : List Photo) (j : Int) (h0 : 0 ≤ j) (h1 : j < photos.length) :
    ∃ p, photoAt photos j = some p := by
  unfold photoAt
  rw [if_pos h0]
  have : j.toNat < photos.length := by omega
  exact ⟨photos[j.toNat], List.getElem?_eq_getElem this⟩

theorem openAt_shows (photos : List Photo) (j : Int) (m : Lightbox) (h0 : 0 ≤ j)
    (h1 : j < photos.length) : ShowsPhoto photos j (openAt photos j m) := by
  obtain ⟨p, hp⟩ := photoAt_isSome photos j h0 h1
  have hp2 : photos[j.toNat]? = some p := by
    unfold photoAt at hp
    rw [if_pos h0] at hp
    exact hp
  unfold openAt
  rw [hp]
  refine ⟨rfl, rfl, rfl, h0, p, hp2, rfl, ?_, ?_⟩
  · show (if truthy p.alt = true then orEmpty p.alt else "Clinic photo") = _
    cases ha : p.alt with
    | none => rfl
    | some a =>
      by_cases he : a = ""
      · simp [truthy, he]
      · simp [truthy, orEmpty, he]
  · show orEmpty p.alt = _
    cases p.alt <;> rfl

theorem openAt_idx (photos : List Photo) (j : Int) (m : Lightbox) (h0 : 0 ≤ j)
    (h1 : j < photos.length) :
    (openAt photos j m).idx = some j ∧ (openAt photos j m).hidden = false := by
  obtain ⟨p, hp⟩ := photoAt_isSome photos j h0 h1
  unfold openAt
  rw [hp]
  exact ⟨rfl, rfl⟩

theorem lightbox_arrow (photos : List Photo) (m : Lightbox) (i : Int) (right : Bool)
    (hh : m.hidden = false) (hi : m.idx = some i) :
    lightboxKeydown photos (if right then "ArrowRight" else "ArrowLeft") m =
      openAt photos
        (jsRem (i + (if right then 1 else -1) + photos.length) photos.length) m := by
  unfold lightboxKeydown
  cases right <;> simp [hh, hi]

theorem jsRem_wrap (k n : Int) (hk : 0 ≤ k + n) (hn : 0 < n) :
    jsRem (k + n) n = k % n ∧ 0 ≤ k % n ∧ k % n < n := by
  unfold jsRem
  rw [Int.tmod_eq_emod hk (Int.le_of_lt hn), Int.add_emod_self]
  exact ⟨rfl, Int.emod_nonneg k (Int.ne_of_gt hn), Int.emod_lt_of_pos k hn⟩

/-- C15. For a photo list of length `n` and an open lightbox at index `i` with
`0 ≤ i < n`: ArrowRight opens index `(i + 1) mod n` and ArrowLeft opens index
`(i - 1 + n) mod n`, that is, the lightbox stays open and shows the image and the caption
of the photo at that index; both indices lie in `[0, n)`; ArrowRight on the last photo
opens the first and ArrowLeft on the first opens the last; and ArrowLeft after ArrowRight
is back at photo `i`. -/
theorem lightbox_navigation (photos : List Photo) (m : Lightbox) (i : Int) (h0 : 0 ≤ i)
    (h1 : i < photos.length) (hh : m.hidden = false) (hi : m.idx = some i) :
    ShowsPhoto photos ((i + 1) % photos.length) (lightboxKeydown photos "ArrowRight" m) ∧
      ShowsPhoto photos ((i - 1 + photos.length) % photos.length)
        (lightboxKeydown photos "ArrowLeft" m) ∧
      (0 ≤ (i + 1) % photos.length ∧ (i + 1) % photos.length < photos.length) ∧
      (0 ≤ (i - 1 + photos.length) % photos.length ∧
        (i - 1 + photos.length) % photos.length < photos.length) ∧
      (i = (photos.length : Int) - 1 →
        ShowsPhoto photos 0 (lightboxKeydown photos "ArrowRight" m)) ∧
      (i = 0 →
        ShowsPhoto photos ((photos.length : Int) - 1)
          (lightboxKeydown photos "ArrowLeft" m)) ∧
      ShowsPhoto photos i
        (lightboxKeydown photos "ArrowLeft" (lightboxKeydown photos "ArrowRight" m)) := by
  have hn : (0 : Int) < photos.length := by omega
  have hr := lightbox_arrow photos m i true hh hi
  have hl := lightbox_arrow photos m i false hh hi
  simp only [if_true, Bool.false_eq_true, if_false] at hr hl
  obtain ⟨r1, r2, r3⟩ := jsRem_wrap (i + 1) photos.length (by omega) hn
  obtain ⟨l1, l2, l3⟩ := jsRem_wrap (i + -1) photos.length (by omega) hn
  have hleft : (i - 1 + (photos.length : Int)) % photos.length = (i + -1) % photos.length := by
    rw [Int.add_emod_self]
    rfl
  have right_shows : ShowsPhoto photos ((i + 1) % photos.length)
      (lightboxKeydown photos "ArrowRight" m) := by
    rw [hr, r1]
    exact openAt_shows photos _ m r2 r3
  have left_shows : ShowsPhoto photos ((i - 1 + photos.length) % photos.length)
      (lightboxKeydown photos "ArrowLeft" m) := by
    rw [hl, l1, hleft]
    exact openAt_shows photos _ m l2 l3
  refine ⟨right_shows, left_shows, ⟨r2, r3⟩,
    ⟨by rw [hleft]; exact l2, by rw [hleft]; exact l3⟩, ?_, ?_, ?_⟩
  · intro hlast
    have h := right_shows
    have e : (i + 1) % (photos.length : Int) = 0 := by
      rw [hlast]
      have : (photos.length : Int) - 1 + 1 = photos.length := by omega
      rw [this, Int.emod_self]
    rw [e] at h
    exact h
  · intro hfirst
    have h := left_shows
    have e : (i - 1 + (photos.length : Int)) % photos.length = (photos.length : Int) - 1 := by
      rw [hfirst]
      have : (0 : Int) - 1 + photos.length = photos.length - 1 := by omega
      rw [this, Int.emod_eq_of_lt (by omega) (by omega)]
    rw [e] at h
    exact h
  · have hback := lightbox_arrow photos (lightboxKeydown photos "ArrowRight" m)
      ((i + 1) % photos.length) false right_shows.1 right_shows.2.2.1
    simp only [Bool.false_eq_true, if_false] at hback
    obtain ⟨b1, b2, b3⟩ := jsRem_wrap ((i + 1) % photos.length + -1) photos.length
      (by omega) hn
    rw [hback, b1]
    have hval : ((i + 1) % (photos.length : Int) + -1) % photos.length = i := by
      rcases lt_or_ge (i + 1) (photos.length : Int) with hlt | hge
      · rw [Int.emod_eq_of_lt (by omega) hlt]
        have : i + 1 + -1 = i := by omega
        rw [this, Int.emod_eq_of_lt h0 h1]
      · have hi1 : i + 1 = photos.length := by omega
        rw [hi1, Int.emod_self]
        have : (0 : Int) + -1 = -1 + 0 := by omega
        rw [this, ← Int.add_emod_self, Int.emod_eq_of_lt (by omega) (by omega)]
        omega
    rw [hval]
    exact openAt_shows photos _ _ h0 h1

/-- Witness of C15: three photos, the lightbox on the last one; ArrowRight shows the first
photo and ArrowLeft the second, which has no caption. -/
theorem lightbox_navigation_witness :
    (0 : Int) ≤ 2 ∧ (2 : Int) < photoSample.length ∧ (lightboxAt 2).hidden = false ∧
      (lightboxAt 2).idx = some 2 ∧
      ShowsPhoto photoSample 0 (lightboxKeydown photoSample "ArrowRight" (lightboxAt 2)) ∧
      lightboxKeydown photoSample "ArrowRight" (lightboxAt 2) =
        { hidden := false, idx := some 0, imgSrc := "a.jpg", imgAlt := "Reception",
          caption := "Reception", bodyOverflow := "hidden" } ∧
      lightboxKeydown photoSample "ArrowLeft" (lightboxAt 2) =
        { hidden := false, idx := some 1, imgSrc := "b.jpg", imgAlt := "Clinic photo",
          caption := "", bodyOverflow := "hidden" } :=
  ⟨by decide, by decide, rfl, rfl,
    (lightbox_navigation photoSample (lightboxAt 2) 2 (by decide) (by decide) rfl
      rfl).2.2.2.2.1 (by decide),
    by decide, by decide⟩

/-! ## The position of the before/after slider -/

theorem le_nan_right (a : JsNum) : a.le .nan = false := by
  cases a <;> rfl

theorem ofExact_ne_nan (fl : ℚ → Option ℚ) (q : ℚ) : JsNum.ofExact fl q ≠ .nan := by
  unfold JsNum.ofExact
  split
  · simp
  · split <;> simp

theorem le_total_of_ne_nan (a b : JsNum) (ha : a ≠ .nan) (hb : b ≠ .nan) :
    a.le b = false → b.le a = true := by
  cases a <;> cases b <;> simp [JsNum.le] at ha hb ⊢
  intro h
  exact le_of_lt h

theorem le_refl_of_ne_nan (a : JsNum) (ha : a ≠ .nan) : a.le a = true := by
  cases a <;> simp [JsNum.le] at ha ⊢

theorem le_ne_nan {a b : JsNum} (h : a.le b = true) : a ≠ .nan ∧ b ≠ .nan := by
  cases a <;> cases b <;> simp [JsNum.le] at h ⊢

theorem max_of_ne_nan (a b : JsNum) (ha : a ≠ .nan) (hb : b ≠ .nan) :
    Math.max a b = if a.le b then b else a := by
  cases a <;> cases b <;> first | exact absurd rfl ha | exact absurd rfl hb | rfl

theorem min_of_ne_nan (a b : JsNum) (ha : a ≠ .nan) (hb : b ≠ .nan) :
    Math.min a b = if a.le b then a else b := by
  cases a <;> cases b <;> first | exact absurd rfl ha | exact absurd rfl hb | rfl

theorem clamp_nan (lo hi : JsNum) : clamp .nan lo hi = .nan := by
  cases lo <;> cases hi <;> rfl

theorem clamp_bounds (n lo hi : JsNum) (hn : n ≠ .nan) (h : lo.le hi = true) :
    lo.le (clamp n lo hi) = true ∧ (clamp n lo hi).le hi = true := by
  obtain ⟨hlo, hhi⟩ := le_ne_nan h
  have hmax : lo.le (Math.max n lo) = true ∧ Math.max n lo ≠ .nan := by
    rw [max_of_ne_nan n lo hn hlo]
    by_cases c : n.le lo = true
    · rw [if_pos c]
      exact ⟨le_refl_of_ne_nan lo hlo, hlo⟩
    · rw [if_neg c]
      exact ⟨le_total_of_ne_nan n lo hn hlo (by simpa using c), hn⟩
  unfold clamp
  rw [min_of_ne_nan _ hi hmax.2 hhi]
  by_cases c : (Math.max n lo).le hi = true
  · rw [if_pos c]
    exact ⟨hmax.1, c⟩
  · rw [if_neg c]
    exact ⟨h, le_refl_of_ne_nan hi hhi⟩

theorem le_antisymm_js {a b : JsNum} (h1 : a.le b = true) (h2 : b.le a = true) : a = b := by
  cases a <;> cases b <;> simp [JsNum.le] at h1 h2 ⊢
  exact le_antisymm h1 h2

theorem clamp_id (n lo hi : JsNum) (h1 : lo.le n = true) (h2 : n.le hi = true) :
    clamp n lo hi = n := by
  obtain ⟨hlo, hn⟩ := le_ne_nan h1
  obtain ⟨_, hhi⟩ := le_ne_nan h2
  have hmax : Math.max n lo = n := by
    rw [max_of_ne_nan n lo hn hlo]
    by_cases c : n.le lo = true
    · rw [if_pos c]
      exact le_antisymm_js h1 c
    · rw [if_neg c]
  unfold clamp
  rw [hmax, min_of_ne_nan n hi hn hhi, if_pos h2]

theorem clamp_eq_nan_iff (n lo hi : JsNum) (h : lo.le hi = true) :
    clamp n lo hi = .nan ↔ n = .nan := by
  constructor
  · intro hc
    by_contra hn
    have hb := (clamp_bounds n lo hi hn h).1
    rw [hc, le_nan_right] at hb
    exact Bool.false_ne_true hb
  · intro hn
    rw [hn]
    exact clamp_nan lo hi

/-- The position lies between 0 and 100. -/
theorem setPos_range (p : JsNum) (s : Slider) (hp : p ≠ .nan) :
    (JsNum.fin 0).le (setPos p s).pos = true ∧ (setPos p s).pos.le (.fin 100) = true :=
  clamp_bounds p (.fin 0) (.fin 100) hp (by simp [JsNum.le])

theorem setPos_range_or (p : JsNum) (s : Slider) :
    (setPos p s).pos = .nan ∨
      ((JsNum.fin 0).le (setPos p s).pos = true ∧ (setPos p s).pos.le (.fin 100) = true) := by
  by_cases hp : p = .nan
  · left
    rw [hp]
    rfl
  · exact Or.inr (setPos_range p s hp)

theorem add_ne_nan (fl : ℚ → Option ℚ) (a : JsNum) (q : ℚ) (ha : a ≠ .nan) :
    JsNum.add fl a (.fin q) ≠ .nan := by
  cases a with
  | nan => exact absurd rfl ha
  | negInf => simp [JsNum.add]
  | posInf => simp [JsNum.add]
  | fin x => exact ofExact_ne_nan fl _

theorem sub_ne_nan (fl : ℚ → Option ℚ) (a : JsNum) (q : ℚ) (ha : a ≠ .nan) :
    JsNum.sub fl a (.fin q) ≠ .nan := by
  cases a with
  | nan => exact absurd rfl ha
  | negInf => simp [JsNum.sub]
  | posInf => simp [JsNum.sub]
  | fin x => exact ofExact_ne_nan fl _

theorem sliderKeydown_range (fl : ℚ → Option ℚ) (shiftKey : Bool) (key : String) (s : Slider)
    (h : (JsNum.fin 0).le s.pos = true ∧ s.pos.le (.fin 100) = true) :
    (JsNum.fin 0).le (sliderKeydown fl shiftKey key s).pos = true ∧
      (sliderKeydown fl shiftKey key s).pos.le (.fin 100) = true := by
  have a1 : ∀ (c : Bool) (p : JsNum) (x : Slider), p ≠ .nan →
      ((JsNum.fin 0).le x.pos = true ∧ x.pos.le (.fin 100) = true) →
      ((JsNum.fin 0).le (if c = true then setPos p x else x).pos = true ∧
        (if c = true then setPos p x else x).pos.le (.fin 100) = true) := by
    intro c p x hp hx
    cases c
    · simpa using hx
    · simpa using setPos_range p x hp
  have hstep : ∀ b : Bool, ∃ q : ℚ, (if b = true then JsNum.fin 10 else JsNum.fin 2) = .fin q := by
    intro b
    cases b
    · exact ⟨2, rfl⟩
    · exact ⟨10, rfl⟩
  obtain ⟨q, hq⟩ := hstep shiftKey
  unfold sliderKeydown
  simp only [hq]
  have h1 := a1 (key == "ArrowLeft") (JsNum.sub fl s.pos (.fin q)) s
    (sub_ne_nan fl _ q (le_ne_nan h.1).2) h
  have h2 := a1 (key == "ArrowRight") (JsNum.add fl _ (.fin q)) _
    (add_ne_nan fl _ q (le_ne_nan h1.1).2) h1
  have h3 := a1 (key == "Home") (.fin 0) _ (by simp) h2
  exact a1 (key == "End") (.fin 100) _ (by simp) h3

theorem sliderKeydown_range_or (fl : ℚ → Option ℚ) (shiftKey : Bool) (key : String)
    (s : Slider)
    (h : s.pos = .nan ∨ ((JsNum.fin 0).le s.pos = true ∧ s.pos.le (.fin 100) = true)) :
    (sliderKeydown fl shiftKey key s).pos = .nan ∨
      ((JsNum.fin 0).le (sliderKeydown fl shiftKey key s).pos = true ∧
        (sliderKeydown fl shiftKey key s).pos.le (.fin 100) = true) := by
  have a1 : ∀ (c : Bool) (p : JsNum) (x : Slider),
      (x.pos = .nan ∨ ((JsNum.fin 0).le x.pos = true ∧ x.pos.le (.fin 100) = true)) →
      ((if c = true then setPos p x else x).pos = .nan ∨
        ((JsNum.fin 0).le (if c = true then setPos p x else x).pos = true ∧
          (if c = true then setPos p x else x).pos.le (.fin 100) = true)) := by
    intro c p x hx
    cases c
    · simpa using hx
    · simpa using setPos_range_or p x
  unfold sliderKeydown
  exact a1 _ _ _ (a1 _ _ _ (a1 _ _ _ (a1 _ _ _ h)))

theorem sliderStep_range (fl : ℚ → Option ℚ) (s : Slider) (e : SliderEvent)
    (he : e.isNaN = false)
    (h : (JsNum.fin 0).le s.pos = true ∧ s.pos.le (.fin 100) = true) :
    (JsNum.fin 0).le (sliderStep fl s e).pos = true ∧
      (sliderStep fl s e).pos.le (.fin 100) = true := by
  cases e with
  | start p => exact setPos_range p _ (by simpa [SliderEvent.isNaN] using he)
  | move p =>
    unfold sliderStep
    cases s.dragging
    · simpa using h
    · simpa using setPos_range p s (by simpa [SliderEvent.isNaN] using he)
  | finish => exact h
  | click p => exact setPos_range p s (by simpa [SliderEvent.isNaN] using he)
  | keydown shiftKey key => exact sliderKeydown_range fl shiftKey key s h

theorem sliderStep_range_or (fl : ℚ → Option ℚ) (s : Slider) (e : SliderEvent)
    (h : s.pos = .nan ∨ ((JsNum.fin 0).le s.pos = true ∧ s.pos.le (.fin 100) = true)) :
    (sliderStep fl s e).pos = .nan ∨
      ((JsNum.fin 0).le (sliderStep fl s e).pos = true ∧
        (sliderStep fl s e).pos.le (.fin 100) = true) := by
  cases e with
  | start p => exact setPos_range_or p _
  | move p =>
    unfold sliderStep
    cases s.dragging
    · simpa using h
    · simpa using setPos_range_or p s
  | finish => exact h
  | click p => exact setPos_range_or p s
  | keydown shiftKey key => exact sliderKeydown_range_or fl shiftKey key s h

theorem sliderRun_range (fl : ℚ → Option ℚ) (evs : List SliderEvent) (s : Slider)
    (he : ∀ e ∈ evs, e.isNaN = false)
    (h : (JsNum.fin 0).le s.pos = true ∧ s.pos.le (.fin 100) = true) :
    (JsNum.fin 0).le (sliderRun fl s evs).pos = true ∧
      (sliderRun fl s evs).pos.le (.fin 100) = true := by
  induction evs generalizing s with
  | nil => exact h
  | cons e evs ih =>
    exact ih (sliderStep fl s e) (fun x hx => he x (List.mem_cons_of_mem _ hx))
      (sliderStep_range fl s e (he e (List.mem_cons_self _ _)) h)

theorem sliderRun_range_or (fl : ℚ → Option ℚ) (evs : List SliderEvent) (s : Slider)
    (h : s.pos = .nan ∨ ((JsNum.fin 0).le s.pos = true ∧ s.pos.le (.fin 100) = true)) :
    (sliderRun fl s evs).pos = .nan ∨
      ((JsNum.fin 0).le (sliderRun fl s evs).pos = true ∧
        (sliderRun fl s evs).pos.le (.fin 100) = true) := by
  induction evs generalizing s with
  | nil => exact h
  | cons e evs ih => exact ih (sliderStep fl s e) (sliderStep_range_or fl s e h)

theorem sliderInit_range :
    (JsNum.fin 0).le sliderInit.pos = true ∧ sliderInit.pos.le (.fin 100) = true := by
  constructor <;> norm_num [sliderInit, JsNum.le]

/-- Counterexample to C16 as stated: `clamp(NaN, 0, 100)` is `NaN`, which is neither at
least 0 nor at most 100; and a click whose position is `NaN` leaves `pos`, the shown
percentage and `aria-valuenow` at `NaN`, where ArrowRight keeps them. -/
theorem clamp_of_nan_is_nan :
    clamp .nan (.fin 0) (.fin 100) = .nan ∧
      (JsNum.fin 0).le (clamp .nan (.fin 0) (.fin 100)) = false ∧
      (clamp .nan (.fin 0) (.fin 100)).le (.fin 100) = false ∧
      sliderRun exactly sliderInit [SliderEvent.click .nan] =
        { pos := .nan, dragging := false, shown := some .nan, ariaValueNow := some .nan } ∧
      (JsNum.fin 0).le (sliderRun exactly sliderInit [SliderEvent.click .nan]).pos = false ∧
      (sliderRun exactly sliderInit
        [SliderEvent.click .nan, SliderEvent.keydown false "ArrowRight"]).pos = .nan := by
  refine ⟨rfl, rfl, rfl, rfl, rfl, ?_⟩
  decide

/-- The position `NaN` arises in the script: on a track of width zero, a pointer at the
left edge of the track gives `fromClientX` the value of zero by zero. -/
theorem fromClientX_zero_width (fl : ℚ → Option ℚ) (x : ℚ) (h : fl 0 = some 0) :
    fromClientX fl (.fin x) (.fin x) (.fin 0) = .nan := by
  simp [fromClientX, JsNum.sub, JsNum.ofExact, h, JsNum.div, JsNum.mul]

/-- A click on a track of width zero, with the pointer at its left edge, which is at 240:
the position is `NaN` from then on. -/
theorem zero_width_track_click :
    fromClientX exactly (.fin 240) (.fin 240) (.fin 0) = .nan ∧
      (sliderRun exactly sliderInit
        [SliderEvent.click (fromClientX exactly (.fin 240) (.fin 240) (.fin 0))]).pos =
        .nan := by
  have h := fromClientX_zero_width exactly 240 rfl
  rw [h]
  exact ⟨rfl, rfl⟩

/-- C16, amended. For `min ≤ max` and `n` other than `NaN`, `clamp(n, min, max)` lies in
`[min, max]`; it is `n` itself when `min ≤ n ≤ max`; and it is `NaN` exactly when `n` is.
Starting from `pos = 50`, after any sequence of slider events (drags and clicks,
ArrowLeft and ArrowRight with step 2, or 10 with Shift, Home, End) in which no drag or
click position is `NaN`, `0 ≤ pos ≤ 100`; after any sequence at all, `pos` is `NaN` or
`0 ≤ pos ≤ 100`; Home gives exactly 0 and End exactly 100 from every state. -/
theorem slider_position_in_range (fl : ℚ → Option ℚ) (n lo hi : JsNum)
    (evs : List SliderEvent) (s : Slider) (shiftKey : Bool) :
    (lo.le hi = true → n ≠ .nan →
        lo.le (clamp n lo hi) = true ∧ (clamp n lo hi).le hi = true) ∧
      (lo.le n = true → n.le hi = true → clamp n lo hi = n) ∧
      (lo.le hi = true → (clamp n lo hi = .nan ↔ n = .nan)) ∧
      ((∀ e ∈ evs, e.isNaN = false) →
        (JsNum.fin 0).le (sliderRun fl sliderInit evs).pos = true ∧
          (sliderRun fl sliderInit evs).pos.le (.fin 100) = true) ∧
      ((sliderRun fl sliderInit evs).pos = .nan ∨
        ((JsNum.fin 0).le (sliderRun fl sliderInit evs).pos = true ∧
          (sliderRun fl sliderInit evs).pos.le (.fin 100) = true)) ∧
      (sliderStep fl s (SliderEvent.keydown shiftKey "Home")).pos = .fin 0 ∧
      (sliderStep fl s (SliderEvent.keydown shiftKey "End")).pos = .fin 100 := by
  refine ⟨fun h hn => clamp_bounds n lo hi hn h, clamp_id n lo hi, clamp_eq_nan_iff n lo hi,
    fun he => sliderRun_range fl evs sliderInit he sliderInit_range,
    sliderRun_range_or fl evs sliderInit (Or.inr sliderInit_range), ?_, ?_⟩
  · show (sliderKeydown fl shiftKey "Home" s).pos = .fin 0
    have h1 : ("Home" : String) ≠ "End" := by decide
    have h2 : ("Home" : String) ≠ "ArrowLeft" := by decide
    have h3 : ("Home" : String) ≠ "ArrowRight" := by decide
    simp [sliderKeydown, h1, h2, h3]
    rfl
  · show (sliderKeydown fl shiftKey "End" s).pos = .fin 100
    simp [sliderKeydown]
    rfl

/-- Witness of C16: a drag beyond both ends of the track, then keys. -/
theorem slider_position_in_range_witness :
    ((JsNum.fin 0).le (clamp (.fin 130) (.fin 0) (.fin 100)) = true ∧
        (clamp (.fin 130) (.fin 0) (.fin 100)).le (.fin 100) = true) ∧
      clamp (.fin 37) (.fin 0) (.fin 100) = .fin 37 ∧
      ((JsNum.fin 0).le (sliderRun exactly sliderInit [SliderEvent.start (.fin 130),
          SliderEvent.move .negInf, SliderEvent.finish,
          SliderEvent.keydown true "ArrowRight"]).pos = true ∧
        (sliderRun exactly sliderInit [SliderEvent.start (.fin 130),
          SliderEvent.move .negInf, SliderEvent.finish,
          SliderEvent.keydown true "ArrowRight"]).pos.le (.fin 100) = true) ∧
      (sliderStep exactly sliderInit (SliderEvent.keydown false "End")).pos = .fin 100 :=
  ⟨(slider_position_in_range exactly (.fin 130) (.fin 0) (.fin 100) [] sliderInit false).1
      (by simp [JsNum.le]) (by simp),
    (slider_position_in_range exactly (.fin 37) (.fin 0) (.fin 100) [] sliderInit false).2.1
      (by simp [JsNum.le]) (by simp [JsNum.le]; norm_num),
    (slider_position_in_range exactly (.fin 130) (.fin 0) (.fin 100)
      [SliderEvent.start (.fin 130), SliderEvent.move .negInf, SliderEvent.finish,
        SliderEvent.keydown true "ArrowRight"] sliderInit false).2.2.2.1
      (by simp [SliderEvent.isNaN]),
    (slider_position_in_range exactly (.fin 130) (.fin 0) (.fin 100) [] sliderInit
      false).2.2.2.2.2.2⟩

/-- The positions along the witness run: 100 after the drag to 130, 0 after the move to
minus infinity, and 10 after Shift+ArrowRight; a move without a drag changes nothing. -/
theorem slider_sample_positions :
    (sliderRun exactly sliderInit [SliderEvent.start (.fin 130)]).pos = .fin 100 ∧
      (sliderRun exactly sliderInit
        [SliderEvent.start (.fin 130), SliderEvent.move .negInf]).pos = .fin 0 ∧
      (sliderRun exactly sliderInit [SliderEvent.start (.fin 130), SliderEvent.move .negInf,
        SliderEvent.finish, SliderEvent.keydown true "ArrowRight"]).pos = .fin 10 ∧
      (sliderRun exactly sliderInit [SliderEvent.move (.fin 30)]).pos = .fin 50 ∧
      (sliderRun exactly sliderInit [SliderEvent.click (.fin (61 / 2))]) =
        { pos := .fin (61 / 2), dragging := false, shown := some (.fin (61 / 2)),
          ariaValueNow := some (.fin 31) } := by
  have h1 : ("ArrowRight" : String) ≠ "End" := by decide
  have h2 : ("ArrowRight" : String) ≠ "Home" := by decide
  have h3 : ("ArrowRight" : String) ≠ "ArrowLeft" := by decide
  refine ⟨?_, ?_, ?_, ?_, ?_⟩ <;>
    norm_num [sliderRun, sliderStep, sliderInit, setPos, clamp, sliderKeydown, h1, h2, h3,
      Math.max, Math.min, Math.round, JsNum.le, JsNum.add, JsNum.sub, JsNum.ofExact, exactly]

end Dental
